import Mathlib

/-!
Verification development for the Scheme interpreter (src/src/evaluation.cpp,
src/src/parser.cpp).  The C++ sources are shallowly embedded below.

Modelling conventions:
  - C++ machine `int` arithmetic inside the interpreter's numeric tower is
    embedded as exact `Int` arithmetic.  Signed overflow in C++ is undefined
    behaviour and the spec (section 9, note 2) leaves overflow behaviour open,
    so theorems speak about the defined, non-overflowing executions.  At the
    two places where the source performs a defined implementation-level
    narrowing conversion (`parse_rational` returns `pair<int,int>` built from
    `long long` values, and calls `gcd(int,int)` on `long long` arguments),
    the two's-complement wrap is modelled explicitly by `toInt32`.
  - Heap objects (pairs, procedures, rationals, strings, the terminate
    sentinel) have identity in C++ (`shared_ptr` pointer comparison inside
    `eq?`).  Pairs live at addresses of a pair store; the other identity
    bearing values carry an allocation stamp `id` drawn from a counter.
    Two values are pointer-equal in the source exactly when they carry the
    same address / stamp here.
  - Values whose identity is never observable through the embedded
    operations (integers, booleans, symbols, null, void) are immediate.
  - Environments are association lists of (name, cell address); the cell
    contents live in `State.cells`, which models the mutable `value_ref`
    of the spec and the in-place updates done by `define`.
-/

namespace Scheme

/-- Expression tags from Def.hpp (the header itself is not under src/; the
constructor set is reconstructed from its uses in parser.cpp and
evaluation.cpp). -/
inductive ExprType where
  | E_VOID | E_EXIT | E_BOOLQ | E_INTQ | E_NULLQ | E_PAIRQ | E_PROCQ
  | E_SYMBOLQ | E_STRINGQ | E_LISTQ | E_DISPLAY
  | E_PLUS | E_MINUS | E_MUL | E_DIV | E_MODULO | E_EXPT
  | E_EQQ | E_EQ | E_LT | E_LE | E_GE | E_GT
  | E_CONS | E_CAR | E_CDR | E_LIST | E_SETCAR | E_SETCDR | E_NOT
  | E_AND | E_OR
  | E_QUOTE | E_IF | E_COND | E_BEGIN | E_LAMBDA | E_DEFINE
  | E_LET | E_LETREC | E_SET | E_ELSE
deriving DecidableEq

/-- Syntax trees (syntax.hpp).  The C++ classes are Number, RationalSyntax,
SymbolSyntax, StringSyntax, TrueSyntax, FalseSyntax and List; they are
renamed with the suffix `Stx` here. -/
inductive Stx where
  | Number (n : Int)
  | RationalStx (numerator denominator : Int)
  | SymbolStx (s : String)
  | StringStx (s : String)
  | TrueStx
  | FalseStx
  | ListStx (stxs : List Stx)

/-- Expression nodes (expr.hpp constructor set, reconstructed from the two
implementation files).  `ETrue`/`EFalse` embed the C++ classes True/False. -/
inductive Expr where
  | Fixnum (n : Int)
  | RationalNum (numerator denominator : Int)
  | StringExpr (s : String)
  | ETrue
  | EFalse
  | MakeVoid
  | Exit
  | Var (x : String)
  | Plus (rand1 rand2 : Expr)
  | Minus (rand1 rand2 : Expr)
  | Mult (rand1 rand2 : Expr)
  | Div (rand1 rand2 : Expr)
  | Modulo (rand1 rand2 : Expr)
  | Expt (rand1 rand2 : Expr)
  | Less (rand1 rand2 : Expr)
  | LessEq (rand1 rand2 : Expr)
  | Equal (rand1 rand2 : Expr)
  | GreaterEq (rand1 rand2 : Expr)
  | Greater (rand1 rand2 : Expr)
  | Cons (rand1 rand2 : Expr)
  | IsEq (rand1 rand2 : Expr)
  | SetCar (rand1 rand2 : Expr)
  | SetCdr (rand1 rand2 : Expr)
  | IsBoolean (rand : Expr)
  | IsFixnum (rand : Expr)
  | IsNull (rand : Expr)
  | IsPair (rand : Expr)
  | IsProcedure (rand : Expr)
  | IsSymbol (rand : Expr)
  | IsString (rand : Expr)
  | IsList (rand : Expr)
  | Not (rand : Expr)
  | Car (rand : Expr)
  | Cdr (rand : Expr)
  | Display (rand : Expr)
  | PlusVar (rands : List Expr)
  | MinusVar (rands : List Expr)
  | MultVar (rands : List Expr)
  | DivVar (rands : List Expr)
  | LessVar (rands : List Expr)
  | LessEqVar (rands : List Expr)
  | EqualVar (rands : List Expr)
  | GreaterEqVar (rands : List Expr)
  | GreaterVar (rands : List Expr)
  | ListFunc (rands : List Expr)
  | AndVar (rands : List Expr)
  | OrVar (rands : List Expr)
  | Begin (es : List Expr)
  | Quote (s : Stx)
  | If (cond conseq alter : Expr)
  | Cond (clauses : List (List Expr))
  | Lambda (x : List String) (e : Expr)
  | Apply (rator : Expr) (rand : List Expr)
  | Define (var : String) (e : Expr)
  | Let (bind : List (String × Expr)) (body : Expr)
  | Letrec (bind : List (String × Expr)) (body : Expr)
  | Set (var : String) (e : Expr)

/-- Environments: association list from names to cell addresses
(newest binding first, as in the persistent `Assoc` chain). -/
abbrev Assoc := List (String × Nat)

/-- Runtime values (value.hpp variant set per spec section 3).  `id` fields
model object identity of the heap-allocated values. -/
inductive Value where
  | VoidV
  | IntV (n : Int)
  | RatV (numerator denominator : Int) (id : Nat)
  | BoolV (b : Bool)
  | SymV (s : String)
  | StrV (s : String) (id : Nat)
  | NullV
  | PairV (addr : Nat)
  | ProcV (parameters : List String) (e : Expr) (env : Assoc) (id : Nat)
  | TermV (id : Nat)

open Value

/-- Interpreter heap: environment cells, pair cells, allocation counter. -/
structure State where
  cells : List Value
  pairs : List (Value × Value)
  nextId : Nat

/-- The empty initial heap. -/
def State.init : State := ⟨[], [], 0⟩

/-- Errors: `RuntimeError` carries its message (RE.hpp); `fuel` marks an
execution cut off by the step budget (a diverging C++ run). -/
inductive Err where
  | rt (msg : String)
  | fuel

abbrev Res (α : Type) := Except Err α

/-- Allocate an environment cell, returning its address. -/
def State.alloc (σ : State) (v : Value) : Nat × State :=
  (σ.cells.length, { σ with cells := σ.cells ++ [v] })

/-- Allocate a pair cell, returning its address. -/
def State.allocPair (σ : State) (a b : Value) : Nat × State :=
  (σ.pairs.length, { σ with pairs := σ.pairs ++ [(a, b)] })

/-- Draw a fresh identity stamp. -/
def State.fresh (σ : State) : Nat × State :=
  (σ.nextId, { σ with nextId := σ.nextId + 1 })

/-- Overwrite an environment cell. -/
def State.setCell (σ : State) (a : Nat) (v : Value) : State :=
  { σ with cells := σ.cells.set a v }

/-- Environment extension: prepend a fresh cell (spec section 4.4). -/
def extend (x : String) (v : Value) (env : Assoc) (σ : State) : Assoc × State :=
  let (a, σ') := σ.alloc v
  ((x, a) :: env, σ')

/-- Environment lookup, first match wins; returns the cell contents
(`find` of the source, which yields a null handle when unbound). -/
def find (x : String) (env : Assoc) (σ : State) : Option Value :=
  match env.lookup x with
  | some a => σ.cells[a]?
  | none => none

/-- Two's-complement narrowing of a C++ `long long` to `int`
(implementation-defined conversion, wraps on the target). -/
def toInt32 (x : Int) : Int :=
  (x + 2 ^ 31) % 2 ^ 32 - 2 ^ 31

/-- The step-indexed unfolding of Euclid's loop; `b.natAbs` strictly
decreases per iteration, so `b.natAbs + 1` steps always suffice. -/
def cGcdAux : Nat → Int → Int → Int
  | 0, a, _ => a
  | f + 1, a, b => if b = 0 then a else cGcdAux f b (a.tmod b)

/-- The file-static `gcd` of evaluation.cpp: Euclid's loop over C++ `int`
with truncating `%`.  On negative inputs the result can be negative
(e.g. `gcd 6 (-3) = -3`), which matters for normalization. -/
def cGcd (a b : Int) : Int :=
  cGcdAux (b.natAbs + 1) a b

/-- Modelled from the spec: the `RationalV` constructor of value.hpp, which
is not under src/.  Spec section 3: construction from arbitrary `(n, d)`
normalizes the sign onto the numerator, divides by the gcd, and collapses
to `Int` when the denominator becomes 1.  Returns the value together with
the updated identity counter. -/
def RationalV (n d : Int) (c : Nat) : Value × Nat :=
  let n1 : Int := if d < 0 then -n else n
  let d1 : Int := if d < 0 then -d else d
  let g : Int := Int.gcd n1 d1
  let n2 : Int := n1.tdiv g
  let d2 : Int := d1.tdiv g
  if d2 = 1 then (IntV n2, c) else (RatV n2 d2 c, c + 1)

/-- A value obeys the numeric invariant of spec section 8: if it is a
rational it has denominator greater than 1 and coprime numerator and
denominator (so a mathematical integer is never represented as a
rational). -/
def ratOK (v : Value) : Prop :=
  ∀ n d i, v = RatV n d i → 1 < d ∧ Int.gcd n d = 1

/-- Allocate a (normalized) rational value in the heap's identity counter. -/
def mkRat (n d : Int) (σ : State) : Value × State :=
  let p := RationalV n d σ.nextId
  (p.1, { σ with nextId := p.2 })

/-- StringV constructor: allocates a string object. -/
def mkStr (s : String) (σ : State) : Value × State :=
  let p := σ.fresh
  (StrV s p.1, p.2)

/-- Plus::evalRator. -/
def plusRator (rand1 rand2 : Value) (σ : State) : Res (Value × State) :=
  match rand1, rand2 with
  | IntV a, IntV b => .ok (IntV (a + b), σ)
  | IntV i, RatV ra_n ra_d _ => .ok (mkRat (i * ra_d + ra_n) ra_d σ)
  | RatV ra_n ra_d _, IntV i => .ok (mkRat (i * ra_d + ra_n) ra_d σ)
  | RatV n1 d1 _, RatV n2 d2 _ =>
    let ret_d := d1 * d2
    let ret_n := n1 * d2 + n2 * d1
    let t := cGcd ret_d ret_n
    let ret_d' := ret_d.tdiv t
    let ret_n' := ret_n.tdiv t
    if ret_d' = 1 then .ok (IntV ret_n', σ) else .ok (mkRat ret_n' ret_d' σ)
  | _, _ => .error (.rt "Wrong typename")

/-- Minus::evalRator. -/
def minusRator (rand1 rand2 : Value) (σ : State) : Res (Value × State) :=
  match rand1, rand2 with
  | IntV a, IntV b => .ok (IntV (a - b), σ)
  | IntV i, RatV ra_n ra_d _ => .ok (mkRat (i * ra_d - ra_n) ra_d σ)
  | RatV ra_n ra_d _, IntV i => .ok (mkRat (-(i * ra_d) + ra_n) ra_d σ)
  | RatV n1 d1 _, RatV n2 d2 _ =>
    let ret_d := d1 * d2
    let ret_n := n1 * d2 - n2 * d1
    let t := cGcd ret_d ret_n
    let ret_d' := ret_d.tdiv t
    let ret_n' := ret_n.tdiv t
    if ret_d' = 1 then .ok (IntV ret_n', σ) else .ok (mkRat ret_n' ret_d' σ)
  | _, _ => .error (.rt "Wrong typename")

/-- Mult::evalRator. -/
def multRator (rand1 rand2 : Value) (σ : State) : Res (Value × State) :=
  match rand1, rand2 with
  | IntV a, IntV b => .ok (IntV (a * b), σ)
  | IntV i, RatV ra_n ra_d _ =>
    let final_n := i * ra_n
    let t := cGcd final_n ra_d
    let final_n' := final_n.tdiv t
    let ra_d' := ra_d.tdiv t
    if ra_d' = 1 then .ok (IntV final_n', σ) else .ok (mkRat final_n' ra_d' σ)
  | RatV ra_n ra_d _, IntV i =>
    let final_n := i * ra_n
    let t := cGcd final_n ra_d
    let final_n' := final_n.tdiv t
    let ra_d' := ra_d.tdiv t
    if ra_d' = 1 then .ok (IntV final_n', σ) else .ok (mkRat final_n' ra_d' σ)
  | RatV n1 d1 _, RatV n2 d2 _ =>
    let ret_d := d1 * d2
    let ret_n := n1 * n2
    let t := cGcd ret_n ret_d
    let ret_n' := ret_n.tdiv t
    let ret_d' := ret_d.tdiv t
    if ret_d' = 1 then .ok (IntV ret_n', σ) else .ok (mkRat ret_n' ret_d' σ)
  | _, _ => .error (.rt "Wrong typename")

/-- Div::evalRator. -/
def divRator (rand1 rand2 : Value) (σ : State) : Res (Value × State) :=
  match rand1, rand2 with
  | IntV a, IntV b =>
    if b = 0 then .error (.rt "division with 0")
    else
      let t := cGcd a b
      let a' := a.tdiv t
      let b' := b.tdiv t
      if b' = 1 then .ok (IntV a', σ) else .ok (mkRat a' b' σ)
  | IntV i, RatV frac_n frac_d _ =>
    if frac_n = 0 then .error (.rt "division with 0")
    else
      let ret_d := frac_n
      let ret_n := i * frac_d
      let t := cGcd ret_d ret_n
      let ret_d' := ret_d.tdiv t
      let ret_n' := ret_n.tdiv t
      if ret_d' = 1 then .ok (IntV ret_n', σ) else .ok (mkRat ret_n' ret_d' σ)
  | RatV frac_n frac_d _, IntV i =>
    if i = 0 then .error (.rt "division with 0")
    else
      let ret_d := frac_d * i
      let ret_n := frac_n
      let t := cGcd ret_d ret_n
      let ret_d' := ret_d.tdiv t
      let ret_n' := ret_n.tdiv t
      if ret_d' = 1 then .ok (IntV ret_n', σ) else .ok (mkRat ret_n' ret_d' σ)
  | RatV n1 d1 _, RatV n2 d2 _ =>
    if n2 = 0 then .error (.rt "division with 0")
    else
      let ret_d := d1 * n2
      let ret_n := n1 * d2
      let t := cGcd ret_n ret_d
      let ret_n' := ret_n.tdiv t
      let ret_d' := ret_d.tdiv t
      if ret_d' = 1 then .ok (IntV ret_n', σ) else .ok (mkRat ret_n' ret_d' σ)
  | _, _ => .error (.rt "Wrong typename")

/-- Modulo::evalRator (C++ `%` is truncating, hence `Int.tmod`). -/
def moduloRator (rand1 rand2 : Value) (σ : State) : Res (Value × State) :=
  match rand1, rand2 with
  | IntV dividend, IntV divisor =>
    if divisor = 0 then .error (.rt "Division by zero")
    else .ok (IntV (dividend.tmod divisor), σ)
  | _, _ => .error (.rt "modulo is only defined for integers")

/-- Limits of the C++ `int` used by Expt's overflow checks. -/
def INT_MAX : Int := 2147483647

/-- Lower limit of the C++ `int`. -/
def INT_MIN : Int := -2147483648

/-- The fast-exponentiation loop inside Expt::evalRator, with its
overflow checks (the `long long` intermediates are exact here, so the
checks fire exactly when the source's defined-behaviour checks do). -/
def exptLoop (result b : Int) (exp : Nat) : Res Int :=
  if exp = 0 then .ok result
  else
    let result' := if exp % 2 = 1 then result * b else result
    if exp % 2 = 1 ∧ (result' > INT_MAX ∨ result' < INT_MIN) then
      .error (.rt "Integer overflow in expt")
    else
      let b' := b * b
      if (b' > INT_MAX ∨ b' < INT_MIN) ∧ exp > 1 then
        .error (.rt "Integer overflow in expt")
      else exptLoop result' b' (exp / 2)
termination_by exp
decreasing_by
  exact Nat.div_lt_self (Nat.pos_of_ne_zero (by assumption)) (by omega)

/-- Expt::evalRator. -/
def exptRator (rand1 rand2 : Value) (σ : State) : Res (Value × State) :=
  match rand1, rand2 with
  | IntV base, IntV exponent =>
    if exponent < 0 then .error (.rt "Negative exponent not supported for integers")
    else if base = 0 ∧ exponent = 0 then .error (.rt "0^0 is undefined")
    else do
      let r ← exptLoop 1 base exponent.toNat
      .ok (IntV r, σ)
  | _, _ => .error (.rt "Wrong typename")

/-- compareNumericValues: three-way comparison via cross multiplication. -/
def compareNumericValues (v1 v2 : Value) : Res Int :=
  match v1, v2 with
  | IntV n1, IntV n2 => .ok (if n1 < n2 then -1 else if n1 > n2 then 1 else 0)
  | RatV n1 d1 _, IntV n2 =>
    let left := n1
    let right := n2 * d1
    .ok (if left < right then -1 else if left > right then 1 else 0)
  | IntV n1, RatV n2 d2 _ =>
    let left := n1 * d2
    let right := n2
    .ok (if left < right then -1 else if left > right then 1 else 0)
  | RatV n1 d1 _, RatV n2 d2 _ =>
    let left := n1 * d2
    let right := n2 * d1
    .ok (if left < right then -1 else if left > right then 1 else 0)
  | _, _ => .error (.rt "Wrong typename in numeric comparison")

/-- Less::evalRator. -/
def lessRator (rand1 rand2 : Value) (σ : State) : Res (Value × State) := do
  let ans ← compareNumericValues rand1 rand2
  .ok (BoolV (ans = -1), σ)

/-- LessEq::evalRator. -/
def lessEqRator (rand1 rand2 : Value) (σ : State) : Res (Value × State) := do
  let ans ← compareNumericValues rand1 rand2
  .ok (BoolV (ans = -1 ∨ ans = 0), σ)

/-- Equal::evalRator (numeric `=`). -/
def equalRator (rand1 rand2 : Value) (σ : State) : Res (Value × State) := do
  let ans ← compareNumericValues rand1 rand2
  .ok (BoolV (ans = 0), σ)

/-- GreaterEq::evalRator. -/
def greaterEqRator (rand1 rand2 : Value) (σ : State) : Res (Value × State) := do
  let ans ← compareNumericValues rand1 rand2
  .ok (BoolV (ans = 0 ∨ ans = 1), σ)

/-- Greater::evalRator. -/
def greaterRator (rand1 rand2 : Value) (σ : State) : Res (Value × State) := do
  let ans ← compareNumericValues rand1 rand2
  .ok (BoolV (ans = 1), σ)

/-- The `ans = ans && compare(...) op c` loop shared by the variadic
comparison rators.  Once `ans` is false the comparison is short-circuited
away, so later type errors are not raised (faithful to `&&`). -/
def chainCmp (pred : Int → Bool) (prev : Value) (rest : List Value) : Res Bool :=
  match rest with
  | [] => .ok true
  | v :: r => do
    let c ← compareNumericValues prev v
    if pred c then chainCmp pred v r else .ok false

/-- Variadic comparison wrapper: empty and singleton chains are true. -/
def chainCmpRator (pred : Int → Bool) (args : List Value) (σ : State) :
    Res (Value × State) :=
  match args with
  | [] => .ok (BoolV true, σ)
  | v :: rest => do
    let b ← chainCmp pred v rest
    .ok (BoolV b, σ)

/-- Left fold used by the variadic arithmetic rators. -/
def foldRator
    (bin : Value → Value → State → Res (Value × State)) :
    Value → List Value → State → Res (Value × State) :=
  fun a args σ =>
    match args with
    | [] => .ok (a, σ)
    | b :: rest => do
      let (a', σ') ← bin a b σ
      foldRator bin a' rest σ'

/-- PlusVar::evalRator. -/
def plusVarRator (args : List Value) (σ : State) : Res (Value × State) :=
  match args with
  | [] => .ok (IntV 0, σ)
  | [a] => .ok (a, σ)
  | a :: rest => foldRator plusRator a rest σ

/-- MinusVar::evalRator. -/
def minusVarRator (args : List Value) (σ : State) : Res (Value × State) :=
  match args with
  | [] => .error (.rt "invalid arg num")
  | [a] => minusRator (IntV 0) a σ
  | a :: rest => foldRator minusRator a rest σ

/-- MultVar::evalRator. -/
def multVarRator (args : List Value) (σ : State) : Res (Value × State) :=
  match args with
  | [] => .ok (IntV 1, σ)
  | [a] => .ok (a, σ)
  | a :: rest => foldRator multRator a rest σ

/-- DivVar::evalRator. -/
def divVarRator (args : List Value) (σ : State) : Res (Value × State) :=
  match args with
  | [] => .error (.rt "Invalid arg num")
  | [a] => divRator (IntV 1) a σ
  | a :: rest => foldRator divRator a rest σ

/-- Cons::evalRator. -/
def consRator (rand1 rand2 : Value) (σ : State) : Res (Value × State) :=
  let p := σ.allocPair rand1 rand2
  .ok (PairV p.1, p.2)

/-- ListFunc::evalRator: right fold building a proper list; the source
allocates pairs from the last element towards the first. -/
def buildListVal (revArgs : List Value) (acc : Value) (σ : State) : Value × State :=
  match revArgs with
  | [] => (acc, σ)
  | v :: rest =>
    let p := σ.allocPair v acc
    buildListVal rest (PairV p.1) p.2

/-- ListFunc::evalRator. -/
def listFuncRator (args : List Value) (σ : State) : Res (Value × State) :=
  match args with
  | [] => .ok (NullV, σ)
  | _ => .ok (buildListVal args.reverse NullV σ)

/-- Car::evalRator. -/
def carRator (rand : Value) (σ : State) : Res (Value × State) :=
  match rand with
  | PairV a =>
    match σ.pairs[a]? with
    | some cell => .ok (cell.1, σ)
    | none => .error (.rt "dangling pair")
  | _ => .error (.rt "Wrong typename")

/-- Cdr::evalRator. -/
def cdrRator (rand : Value) (σ : State) : Res (Value × State) :=
  match rand with
  | PairV a =>
    match σ.pairs[a]? with
    | some cell => .ok (cell.2, σ)
    | none => .error (.rt "dangling pair")
  | _ => .error (.rt "Wrong typename")

/-- IsList::evalRator: walk the cdr chain (fuelled; the source loops
forever on a cyclic chain). -/
def listWalk (fuel : Nat) (σ : State) (v : Value) : Res Bool :=
  match fuel with
  | 0 => .error .fuel
  | f + 1 =>
    match v with
    | PairV a =>
      match σ.pairs[a]? with
      | some cell => listWalk f σ cell.2
      | none => .error (.rt "dangling pair")
    | NullV => .ok true
    | _ => .ok false

/-- IsList::evalRator. -/
def isListRator (fuel : Nat) (rand : Value) (σ : State) : Res (Value × State) :=
  match rand with
  | NullV => .ok (BoolV true, σ)
  | PairV a => do
    let b ← listWalk fuel σ (PairV a)
    .ok (BoolV b, σ)
  | _ => .ok (BoolV false, σ)

/-- Modelled from the spec: SetCar::evalRator is an empty TODO stub in
evaluation.cpp (line 634); spec sections 4.6 and 9 fix its behaviour to
in-place mutation of the pair cell, returning Void. -/
def setCarRator (rand1 rand2 : Value) (σ : State) : Res (Value × State) :=
  match rand1 with
  | PairV a =>
    match σ.pairs[a]? with
    | some cell => .ok (VoidV, { σ with pairs := σ.pairs.set a (rand2, cell.2) })
    | none => .error (.rt "dangling pair")
  | _ => .error (.rt "Wrong typename")

/-- Modelled from the spec: SetCdr::evalRator is an empty TODO stub in
evaluation.cpp (line 638); spec fixes in-place mutation returning Void. -/
def setCdrRator (rand1 rand2 : Value) (σ : State) : Res (Value × State) :=
  match rand1 with
  | PairV a =>
    match σ.pairs[a]? with
    | some cell => .ok (VoidV, { σ with pairs := σ.pairs.set a (cell.1, rand2) })
    | none => .error (.rt "dangling pair")
  | _ => .error (.rt "Wrong typename")

/-- Pointer comparison `rand1.get() == rand2.get()` on the value graph:
identical heap objects have identical address / stamp.  Distinct types or
immediate-only combinations are never pointer-equal. -/
def ptrEq (v1 v2 : Value) : Bool :=
  match v1, v2 with
  | PairV a, PairV b => a == b
  | ProcV _ _ _ i, ProcV _ _ _ j => i == j
  | RatV _ _ i, RatV _ _ j => i == j
  | StrV _ i, StrV _ j => i == j
  | TermV i, TermV j => i == j
  | _, _ => false

/-- IsEq::evalRator (eq?).  Note the fallthrough to pointer identity for
every case not handled before it, including two rationals. -/
def isEqRator (rand1 rand2 : Value) : Value :=
  match rand1, rand2 with
  | IntV n1, IntV n2 => BoolV (n1 == n2)
  | BoolV b1, BoolV b2 => BoolV (b1 == b2)
  | SymV s1, SymV s2 => BoolV (s1 == s2)
  | NullV, NullV => BoolV true
  | VoidV, VoidV => BoolV true
  | v1, v2 => BoolV (ptrEq v1 v2)

/-- IsBoolean::evalRator. -/
def isBooleanRator (rand : Value) : Value :=
  match rand with
  | BoolV _ => BoolV true
  | _ => BoolV false

/-- IsFixnum::evalRator — the implementation behind the surface
primitive `number?`: it tests the `V_INT` tag only. -/
def isFixnumRator (rand : Value) : Value :=
  match rand with
  | IntV _ => BoolV true
  | _ => BoolV false

/-- IsNull::evalRator. -/
def isNullRator (rand : Value) : Value :=
  match rand with
  | NullV => BoolV true
  | _ => BoolV false

/-- IsPair::evalRator. -/
def isPairRator (rand : Value) : Value :=
  match rand with
  | PairV _ => BoolV true
  | _ => BoolV false

/-- IsProcedure::evalRator. -/
def isProcedureRator (rand : Value) : Value :=
  match rand with
  | ProcV _ _ _ _ => BoolV true
  | _ => BoolV false

/-- IsSymbol::evalRator. -/
def isSymbolRator (rand : Value) : Value :=
  match rand with
  | SymV _ => BoolV true
  | _ => BoolV false

/-- IsString::evalRator. -/
def isStringRator (rand : Value) : Value :=
  match rand with
  | StrV _ _ => BoolV true
  | _ => BoolV false

/-- Not::evalRator. -/
def notRator (rand : Value) : Value :=
  match rand with
  | BoolV false => BoolV true
  | _ => BoolV false

/-- Display::evalRator: printing is a collaborator effect outside the
modelled state (spec section 1); the returned value is Void. -/
def displayRator (rand : Value) (σ : State) : Res (Value × State) :=
  match rand with
  | _ => .ok (VoidV, σ)

/-- The digit-accumulation loops of parse_rational: consume leading digits,
returning the accumulated value, the number of digits consumed and the
rest of the input. -/
def digitsAcc (l : List Char) (acc : Int) : Int × Nat × List Char :=
  match l with
  | [] => (acc, 0, [])
  | c :: r =>
    if c.isDigit then
      let p := digitsAcc r (acc * 10 + ((c.toNat : Int) - 48))
      (p.1, p.2.1 + 1, p.2.2)
    else (acc, 0, l)

/-- The optional-sign reading of parse_rational: `-` means negative. -/
def sgnOf (l : List Char) : Int :=
  match l with
  | '-' :: _ => -1
  | _ => 1

/-- Consume an optional leading sign character. -/
def stripSign (l : List Char) : List Char :=
  match l with
  | '+' :: r => r
  | '-' :: r => r
  | _ => l

/-- The fractional-part phase: consume `.` and following digits,
returning (frac_part, frac_den, has_frac, rest). -/
def fracStep (l2 : List Char) : Int × Int × Bool × List Char :=
  match l2 with
  | '.' :: r =>
    let p2 := digitsAcc r 0
    (p2.1, 10 ^ p2.2.1, p2.2.1 != 0, p2.2.2)
  | _ => (0, 1, false, l2)

/-- The scientific-notation phase: consume `e`/`E`, an optional sign and
at least one digit, returning (exp_sign, exp_val, rest); `none` mirrors
the `return false` paths of the source. -/
def expStep (l3 : List Char) : Option (Int × Int × List Char) :=
  match l3 with
  | [] => some (1, 0, [])
  | c :: r =>
    if c = 'e' ∨ c = 'E' then
      let r1 := stripSign r
      match r1 with
      | [] => none
      | c2 :: _ =>
        if c2.isDigit then some (sgnOf r, (digitsAcc r1 0).1, (digitsAcc r1 0).2.2)
        else none
    else some (1, 0, l3)

/-- parse_rational (evaluation.cpp lines 121-206): optional sign, optional
integer digits, optional fraction, optional exponent; the whole string
must be consumed.  The `long long` intermediates are exact (overflow there
is undefined behaviour); the narrowing to C++ `int` at the `gcd` call and
in the returned `pair<int,int>` is modelled by `toInt32`. -/
def prTail (sign int_part frac_part frac_den exp_sign exp_val : Int) :
    Int × Int :=
  let num0 := int_part * frac_den + frac_part
  let num1 := if exp_sign = 1 then num0 * 10 ^ exp_val.toNat else num0
  let den1 := if exp_sign = 1 then frac_den else frac_den * 10 ^ exp_val.toNat
  let num2 := num1 * sign
  let gcd0 := cGcd (toInt32 num2) (toInt32 den1)
  let num3 := num2.tdiv gcd0
  let den3 := den1.tdiv gcd0
  let num4 := if den3 < 0 then -num3 else num3
  let den4 := if den3 < 0 then -den3 else den3
  (toInt32 num4, toInt32 den4)

def parse_rational (s : String) : Option (Int × Int) :=
  if stripSign s.data = [] then none
  else
    match expStep (fracStep (digitsAcc (stripSign s.data) 0).2.2).2.2.2 with
    | none => none
    | some (exp_sign, exp_val, l4) =>
      if l4 ≠ [] then none
      else if !((digitsAcc (stripSign s.data) 0).2.1 != 0) &&
             !(fracStep (digitsAcc (stripSign s.data) 0).2.2).2.2.1 then none
      else
        some (prTail (sgnOf s.data) (digitsAcc (stripSign s.data) 0).1
          (fracStep (digitsAcc (stripSign s.data) 0).2.2).1
          (fracStep (digitsAcc (stripSign s.data) 0).2.2).2.1 exp_sign exp_val)

/-- The reserved formal-name prototypes of primitive_map
(evaluation.cpp lines 40-60).  Primitives without an entry (car, cons,
the comparison chain, list?, not, ...) yield `none`, which makes
Var::eval fail on them. -/
def primitive_map (t : ExprType) : Option (Expr × List String) :=
  match t with
  | .E_VOID => some (.MakeVoid, [])
  | .E_EXIT => some (.Exit, [])
  | .E_BOOLQ => some (.IsBoolean (.Var "parm"), ["parm"])
  | .E_INTQ => some (.IsFixnum (.Var "parm"), ["parm"])
  | .E_NULLQ => some (.IsNull (.Var "parm"), ["parm"])
  | .E_PAIRQ => some (.IsPair (.Var "parm"), ["parm"])
  | .E_PROCQ => some (.IsProcedure (.Var "parm"), ["parm"])
  | .E_SYMBOLQ => some (.IsSymbol (.Var "parm"), ["parm"])
  | .E_STRINGQ => some (.IsString (.Var "parm"), ["parm"])
  | .E_DISPLAY => some (.Display (.Var "parm"), ["parm"])
  | .E_PLUS => some (.PlusVar [], ["@args"])
  | .E_MINUS => some (.MinusVar [], ["@args"])
  | .E_MUL => some (.MultVar [], ["@args"])
  | .E_DIV => some (.DivVar [], ["@args"])
  | .E_MODULO => some (.Modulo (.Var "parm1") (.Var "parm2"), ["parm1", "parm2"])
  | .E_EXPT => some (.Expt (.Var "parm1") (.Var "parm2"), ["parm1", "parm2"])
  | .E_EQQ => some (.EqualVar [], [])
  | _ => none

/-- Modelled from the spec: the `primitives` name map is declared extern in
both implementation files but defined in a file missing from src/.  The
name set follows spec section 6; the tags follow their uses in
parser.cpp. -/
def primitives (s : String) : Option ExprType :=
  match s with
  | "void" => some .E_VOID
  | "exit" => some .E_EXIT
  | "+" => some .E_PLUS
  | "-" => some .E_MINUS
  | "*" => some .E_MUL
  | "/" => some .E_DIV
  | "modulo" => some .E_MODULO
  | "expt" => some .E_EXPT
  | "<" => some .E_LT
  | "<=" => some .E_LE
  | "=" => some .E_EQ
  | ">=" => some .E_GE
  | ">" => some .E_GT
  | "cons" => some .E_CONS
  | "car" => some .E_CAR
  | "cdr" => some .E_CDR
  | "list" => some .E_LIST
  | "set-car!" => some .E_SETCAR
  | "set-cdr!" => some .E_SETCDR
  | "eq?" => some .E_EQQ
  | "boolean?" => some .E_BOOLQ
  | "number?" => some .E_INTQ
  | "null?" => some .E_NULLQ
  | "pair?" => some .E_PAIRQ
  | "procedure?" => some .E_PROCQ
  | "symbol?" => some .E_SYMBOLQ
  | "string?" => some .E_STRINGQ
  | "list?" => some .E_LISTQ
  | "not" => some .E_NOT
  | "display" => some .E_DISPLAY
  | _ => none

/-- Quote conversion: the dot test `v_type == V_SYM && s == "."`. -/
def isDotV (v : Value) : Bool :=
  match v with
  | SymV s => s == "."
  | _ => false

/-- The dot-scanning loop of Helper (evaluation.cpp lines 731-740):
`j` is the current index, `total` the element count, `isp` the `is_pair`
flag, `mid` the accumulated non-dot elements. -/
def scanGo (vs : List Value) (j total : Nat) (isp : Bool) (mid : List Value) :
    Res (List Value × Bool) :=
  match vs with
  | [] => .ok (mid, isp)
  | v :: rest =>
    if isDotV v then
      if isp || j == total - 1 || j == 0 then .error (.rt "Invalid dot expression")
      else scanGo rest (j + 1) total true mid
    else scanGo rest (j + 1) total isp (mid ++ [v])

/-- Scan a converted element list for dots. -/
def scanDot (vs : List Value) : Res (List Value × Bool) :=
  scanGo vs 0 vs.length false []

mutual

/-- Helper (evaluation.cpp lines 700-757): quote conversion of a syntax
tree to a value.  The fuel only bounds tree depth (conversion of a finite
tree never exhausts it when it exceeds the depth). -/
def helper : Nat → Stx → State → Res (Value × State)
  | 0, _, _ => .error .fuel
  | f + 1, s, σ =>
    match s with
    | .Number n => .ok (IntV n, σ)
    | .RationalStx n d => .ok (mkRat n d σ)
    | .SymbolStx sym => .ok (SymV sym, σ)
    | .StringStx str => .ok (mkStr str σ)
    | .TrueStx => .ok (BoolV true, σ)
    | .FalseStx => .ok (BoolV false, σ)
    | .ListStx stxs =>
      if stxs.isEmpty then .ok (NullV, σ)
      else do
        let (first_list, σ1) ← helperList f stxs σ
        let (mid_list, is_pair) ← scanDot first_list
        if is_pair then
          match mid_list.reverse with
          | [] => .error (.rt "empty element list (out-of-bounds access in source)")
          | last :: revRest => .ok (buildListVal revRest last σ1)
        else .ok (buildListVal mid_list.reverse NullV σ1)

/-- Convert each element of a syntax list in order. -/
def helperList : Nat → List Stx → State → Res (List Value × State)
  | 0, _, _ => .error .fuel
  | _ + 1, [], σ => .ok ([], σ)
  | f + 1, s :: rest, σ => do
    let (v, σ1) ← helper f s σ
    let (vs, σ2) ← helperList f rest σ1
    .ok (v :: vs, σ2)

end

/-- The `dynamic_cast<Variadic*>` test used by Apply: the classes that
implement `evalRator(vector<Value>)`. -/
def isVariadic (e : Expr) : Bool :=
  match e with
  | .PlusVar _ | .MinusVar _ | .MultVar _ | .DivVar _
  | .LessVar _ | .LessEqVar _ | .EqualVar _ | .GreaterEqVar _
  | .GreaterVar _ | .ListFunc _ => true
  | _ => false

/-- The unpacking loop of Variadic::eval: walk the `@args` proper list.
A cyclic chain loops forever in C++, hence the fuel. -/
def unpackArgs (fuel : Nat) (σ : State) (v : Value) (acc : List Value) :
    Res (List Value) :=
  match fuel with
  | 0 => .error .fuel
  | f + 1 =>
    match v with
    | PairV a =>
      match σ.pairs[a]? with
      | some cell => unpackArgs f σ cell.2 (acc ++ [cell.1])
      | none => .error (.rt "dangling pair")
    | _ => .ok acc

/-- Evaluate a list of expressions left to right, threading the
environment reference and the heap. -/
def evalSeq (ev : Expr → Assoc → State → Res (Value × Assoc × State)) :
    List Expr → Assoc → State → Res (List Value × Assoc × State) :=
  fun es env σ =>
    match es with
    | [] => .ok ([], env, σ)
    | e :: rest => do
      let (v, env1, σ1) ← ev e env σ
      let (vs, env2, σ2) ← evalSeq ev rest env1 σ1
      .ok (v :: vs, env2, σ2)

/-- Unary::eval. -/
def evalUnary (ev : Expr → Assoc → State → Res (Value × Assoc × State))
    (r : Expr) (rator : Value → State → Res (Value × State))
    (env : Assoc) (σ : State) : Res (Value × Assoc × State) := do
  let (v, env1, σ1) ← ev r env σ
  let (w, σ2) ← rator v σ1
  .ok (w, env1, σ2)

/-- Binary::eval. -/
def evalBinary (ev : Expr → Assoc → State → Res (Value × Assoc × State))
    (r1 r2 : Expr) (rator : Value → Value → State → Res (Value × State))
    (env : Assoc) (σ : State) : Res (Value × Assoc × State) := do
  let (v1, env1, σ1) ← ev r1 env σ
  let (v2, env2, σ2) ← ev r2 env1 σ1
  let (w, σ3) ← rator v1 v2 σ2
  .ok (w, env2, σ3)

/-- Variadic::eval: with operands, evaluate them; with none, look for the
packed `@args` list (the apply path) and unpack it. -/
def evalVariadic (fuel : Nat)
    (ev : Expr → Assoc → State → Res (Value × Assoc × State))
    (rands : List Expr) (rator : List Value → State → Res (Value × State))
    (env : Assoc) (σ : State) : Res (Value × Assoc × State) :=
  match rands with
  | _ :: _ => do
    let (vs, env1, σ1) ← evalSeq ev rands env σ
    let (w, σ2) ← rator vs σ1
    .ok (w, env1, σ2)
  | [] =>
    match find "@args" env σ with
    | none => do
      let (w, σ1) ← rator [] σ
      .ok (w, env, σ1)
    | some arg_list => do
      let vs ← unpackArgs fuel σ arg_list []
      let (w, σ1) ← rator vs σ
      .ok (w, env, σ1)

/-- Cond::eval clause loop. -/
def evalCond (ev : Expr → Assoc → State → Res (Value × Assoc × State)) :
    List (List Expr) → Assoc → State → Res (Value × Assoc × State) :=
  fun clauses env σ =>
    match clauses with
    | [] => .ok (VoidV, env, σ)
    | clause :: rest =>
      match clause with
      | [] => .error (.rt "empty cond clause (out-of-bounds access in source)")
      | p :: body => do
        let (pred, env1, σ1) ← ev p env σ
        match pred, body with
        | BoolV false, _ => evalCond ev rest env1 σ1
        | _, [] => .ok (pred, env1, σ1)
        | _, _ => do
          let (vs, env2, σ2) ← evalSeq ev body env1 σ1
          match vs.getLast? with
          | some v => .ok (v, env2, σ2)
          | none => .error (.rt "unreachable")

/-- AndVar::eval loop (caller handles the empty operand list). -/
def evalAnd (ev : Expr → Assoc → State → Res (Value × Assoc × State)) :
    List Expr → Assoc → State → Res (Value × Assoc × State) :=
  fun rands env σ =>
    match rands with
    | [] => .ok (BoolV true, env, σ)
    | [e] => do
      let (v, env1, σ1) ← ev e env σ
      match v with
      | BoolV false => .ok (BoolV false, env1, σ1)
      | _ => .ok (v, env1, σ1)
    | e :: rest => do
      let (v, env1, σ1) ← ev e env σ
      match v with
      | BoolV false => .ok (BoolV false, env1, σ1)
      | _ => evalAnd ev rest env1 σ1

/-- OrVar::eval loop. -/
def evalOr (ev : Expr → Assoc → State → Res (Value × Assoc × State)) :
    List Expr → Assoc → State → Res (Value × Assoc × State) :=
  fun rands env σ =>
    match rands with
    | [] => .ok (BoolV false, env, σ)
    | e :: rest => do
      let (v, env1, σ1) ← ev e env σ
      match v with
      | BoolV false => evalOr ev rest env1 σ1
      | _ => .ok (v, env1, σ1)

/-- Let::eval binding loop: right-hand sides are evaluated against the
caller's environment reference (which their own defines may extend),
while the new frame accumulates over a snapshot of the original. -/
def letBinds (ev : Expr → Assoc → State → Res (Value × Assoc × State)) :
    List (String × Expr) → Assoc → Assoc → State → Res (Assoc × Assoc × State) :=
  fun binds envCur newEnv σ =>
    match binds with
    | [] => .ok (envCur, newEnv, σ)
    | (x, rhs) :: rest => do
      let (v, envCur1, σ1) ← ev rhs envCur σ
      let p := extend x v newEnv σ1
      letBinds ev rest envCur1 p.1 p.2

/-- Letrec placeholder allocation: one Void cell per name, recording each
cell address with its right-hand side. -/
def letrecAlloc : List (String × Expr) → Assoc → State →
    Assoc × List (Nat × Expr) × State :=
  fun binds env σ =>
    match binds with
    | [] => (env, [], σ)
    | (x, e) :: rest =>
      let a := σ.cells.length
      let p := extend x VoidV env σ
      let q := letrecAlloc rest p.1 p.2
      (q.1, (a, e) :: q.2.1, q.2.2)

/-- Letrec right-hand-side pass: evaluate each in the extended
environment and store the result into the corresponding cell. -/
def letrecRhs (ev : Expr → Assoc → State → Res (Value × Assoc × State)) :
    List (Nat × Expr) → Assoc → State → Res (Assoc × State) :=
  fun items env σ =>
    match items with
    | [] => .ok (env, σ)
    | (a, e) :: rest => do
      let (v, env1, σ1) ← ev e env σ
      letrecRhs ev rest env1 (σ1.setCell a v)

/-- Extend an environment with positional parameter bindings. -/
def extendAll : List String → List Value → Assoc → State → Assoc × State :=
  fun xs vs env σ =>
    match xs, vs with
    | x :: xr, v :: vr =>
      let p := extend x v env σ
      extendAll xr vr p.1 p.2
    | _, _ => (env, σ)

/-- Var::eval (evaluation.cpp lines 208-240): identifier validity checks,
numeric reinterpretation, environment lookup, first-class primitive
synthesis. -/
def varEval (x : String) (env : Assoc) (σ : State) : Res (Value × Assoc × State) :=
  match x.data with
  | [] => .error (.rt "the var should not be a blank")
  | c0 :: _ =>
    if c0.isDigit || c0 = '.' || c0 = '@' then
      .error (.rt "the first character of var is invalid")
    else if x.data.any (fun c =>
        c = '#' || c = Char.ofNat 39 || c = Char.ofNat 34 || c = Char.ofNat 96) then
      .error (.rt "the var cannot contain invalid char")
    else
      match parse_rational x with
      | some (n, d) =>
        if d = 1 then .ok (IntV n, env, σ)
        else
          let p := mkRat n d σ
          .ok (p.1, env, p.2)
      | none =>
        if c0.isDigit then
          .error (.rt "Cannot convert to a number but start with number char")
        else
          match find x env σ with
          | some v => .ok (v, env, σ)
          | none =>
            match primitives x with
            | some pt =>
              match primitive_map pt with
              | some proto =>
                let p := σ.fresh
                .ok (ProcV proto.2 proto.1 [] p.1, env, p.2)
              | none => .error (.rt "The variable is not define in the scope")
            | none => .error (.rt "The variable is not define in the scope")

/-- The evaluator.  `fuel` bounds the recursion depth (C++ recursion can
diverge); every case follows the corresponding `eval` method in
evaluation.cpp, except Letrec, Set and the set-car!/set-cdr! rators, whose
bodies are TODO stubs in the source and are modelled from the spec. -/
def eval (fuel : Nat) (expr : Expr) (env : Assoc) (σ : State) :
    Res (Value × Assoc × State) :=
  match fuel with
  | 0 => .error .fuel
  | f + 1 =>
    match expr with
    | .Fixnum n => .ok (IntV n, env, σ)
    | .RationalNum n d =>
      let p := mkRat n d σ
      .ok (p.1, env, p.2)
    | .StringExpr s =>
      let p := mkStr s σ
      .ok (p.1, env, p.2)
    | .ETrue => .ok (BoolV true, env, σ)
    | .EFalse => .ok (BoolV false, env, σ)
    | .MakeVoid => .ok (VoidV, env, σ)
    | .Exit =>
      let p := σ.fresh
      .ok (TermV p.1, env, p.2)
    | .Var x => varEval x env σ
    | .Plus r1 r2 => evalBinary (fun e' n' s' => eval f e' n' s') r1 r2 plusRator env σ
    | .Minus r1 r2 => evalBinary (fun e' n' s' => eval f e' n' s') r1 r2 minusRator env σ
    | .Mult r1 r2 => evalBinary (fun e' n' s' => eval f e' n' s') r1 r2 multRator env σ
    | .Div r1 r2 => evalBinary (fun e' n' s' => eval f e' n' s') r1 r2 divRator env σ
    | .Modulo r1 r2 => evalBinary (fun e' n' s' => eval f e' n' s') r1 r2 moduloRator env σ
    | .Expt r1 r2 => evalBinary (fun e' n' s' => eval f e' n' s') r1 r2 exptRator env σ
    | .Less r1 r2 => evalBinary (fun e' n' s' => eval f e' n' s') r1 r2 lessRator env σ
    | .LessEq r1 r2 => evalBinary (fun e' n' s' => eval f e' n' s') r1 r2 lessEqRator env σ
    | .Equal r1 r2 => evalBinary (fun e' n' s' => eval f e' n' s') r1 r2 equalRator env σ
    | .GreaterEq r1 r2 => evalBinary (fun e' n' s' => eval f e' n' s') r1 r2 greaterEqRator env σ
    | .Greater r1 r2 => evalBinary (fun e' n' s' => eval f e' n' s') r1 r2 greaterRator env σ
    | .Cons r1 r2 => evalBinary (fun e' n' s' => eval f e' n' s') r1 r2 consRator env σ
    | .IsEq r1 r2 =>
      evalBinary (fun e' n' s' => eval f e' n' s') r1 r2
        (fun v1 v2 s' => .ok (isEqRator v1 v2, s')) env σ
    | .SetCar r1 r2 => evalBinary (fun e' n' s' => eval f e' n' s') r1 r2 setCarRator env σ
    | .SetCdr r1 r2 => evalBinary (fun e' n' s' => eval f e' n' s') r1 r2 setCdrRator env σ
    | .IsBoolean r =>
      evalUnary (fun e' n' s' => eval f e' n' s') r
        (fun v s' => .ok (isBooleanRator v, s')) env σ
    | .IsFixnum r =>
      evalUnary (fun e' n' s' => eval f e' n' s') r
        (fun v s' => .ok (isFixnumRator v, s')) env σ
    | .IsNull r =>
      evalUnary (fun e' n' s' => eval f e' n' s') r
        (fun v s' => .ok (isNullRator v, s')) env σ
    | .IsPair r =>
      evalUnary (fun e' n' s' => eval f e' n' s') r
        (fun v s' => .ok (isPairRator v, s')) env σ
    | .IsProcedure r =>
      evalUnary (fun e' n' s' => eval f e' n' s') r
        (fun v s' => .ok (isProcedureRator v, s')) env σ
    | .IsSymbol r =>
      evalUnary (fun e' n' s' => eval f e' n' s') r
        (fun v s' => .ok (isSymbolRator v, s')) env σ
    | .IsString r =>
      evalUnary (fun e' n' s' => eval f e' n' s') r
        (fun v s' => .ok (isStringRator v, s')) env σ
    | .IsList r => evalUnary (fun e' n' s' => eval f e' n' s') r (isListRator f) env σ
    | .Not r =>
      evalUnary (fun e' n' s' => eval f e' n' s') r
        (fun v s' => .ok (notRator v, s')) env σ
    | .Car r => evalUnary (fun e' n' s' => eval f e' n' s') r carRator env σ
    | .Cdr r => evalUnary (fun e' n' s' => eval f e' n' s') r cdrRator env σ
    | .Display r => evalUnary (fun e' n' s' => eval f e' n' s') r displayRator env σ
    | .PlusVar rands =>
      evalVariadic f (fun e' n' s' => eval f e' n' s') rands plusVarRator env σ
    | .MinusVar rands =>
      evalVariadic f (fun e' n' s' => eval f e' n' s') rands minusVarRator env σ
    | .MultVar rands =>
      evalVariadic f (fun e' n' s' => eval f e' n' s') rands multVarRator env σ
    | .DivVar rands =>
      evalVariadic f (fun e' n' s' => eval f e' n' s') rands divVarRator env σ
    | .LessVar rands =>
      evalVariadic f (fun e' n' s' => eval f e' n' s') rands
        (chainCmpRator (fun c => c == -1)) env σ
    | .LessEqVar rands =>
      evalVariadic f (fun e' n' s' => eval f e' n' s') rands
        (chainCmpRator (fun c => c != 1)) env σ
    | .EqualVar rands =>
      evalVariadic f (fun e' n' s' => eval f e' n' s') rands
        (chainCmpRator (fun c => c == 0)) env σ
    | .GreaterEqVar rands =>
      evalVariadic f (fun e' n' s' => eval f e' n' s') rands
        (chainCmpRator (fun c => c != -1)) env σ
    | .GreaterVar rands =>
      evalVariadic f (fun e' n' s' => eval f e' n' s') rands
        (chainCmpRator (fun c => c == 1)) env σ
    | .ListFunc rands =>
      evalVariadic f (fun e' n' s' => eval f e' n' s') rands listFuncRator env σ
    | .AndVar rands => evalAnd (fun e' n' s' => eval f e' n' s') rands env σ
    | .OrVar rands => evalOr (fun e' n' s' => eval f e' n' s') rands env σ
    | .Begin es =>
      match es with
      | [] => .ok (VoidV, env, σ)
      | _ => do
        let (vs, env1, σ1) ← evalSeq (fun e' n' s' => eval f e' n' s') es env σ
        match vs.getLast? with
        | some v => .ok (v, env1, σ1)
        | none => .error (.rt "unreachable")
    | .Quote s => do
      let (v, σ1) ← helper f s σ
      .ok (v, env, σ1)
    | .If c t e => do
      let (pred, env1, σ1) ← eval f c env σ
      match pred with
      | BoolV false => eval f e env1 σ1
      | _ => eval f t env1 σ1
    | .Cond clauses => evalCond (fun e' n' s' => eval f e' n' s') clauses env σ
    | .Lambda x e =>
      let p := σ.fresh
      .ok (ProcV x e env p.1, env, p.2)
    | .Apply rator rands => do
      let (proc_val, env1, σ1) ← eval f rator env σ
      match proc_val with
      | ProcV params body cenv _ => do
        let (args, env2, σ2) ←
          evalSeq (fun e' n' s' => eval f e' n' s') rands env1 σ1
        let packed : List Value × State :=
          if isVariadic body then
            let p := buildListVal args.reverse NullV σ2
            ([p.1], p.2)
          else (args, σ2)
        if packed.1.length ≠ params.length then
          .error (.rt "Wrong number of arguments")
        else do
          let q := extendAll params packed.1 cenv packed.2
          let (v, _, σ3) ← eval f body q.1 q.2
          .ok (v, env2, σ3)
      | _ => .error (.rt "Attempt to apply a non-procedure")
    | .Define var e => do
      let p := extend var VoidV env σ
      let (v, env2, σ2) ← eval f e p.1 p.2
      match env2 with
      | [] => .error (.rt "unreachable")
      | (_, a) :: _ => .ok (VoidV, env2, σ2.setCell a v)
    | .Let bind body => do
      let (envCur, newEnv, σ1) ← letBinds (fun e' n' s' => eval f e' n' s') bind env env σ
      let (v, _, σ2) ← eval f body newEnv σ1
      .ok (v, envCur, σ2)
    | .Letrec bind body => do
      let t := letrecAlloc bind env σ
      let (env1, σ1) ← letrecRhs (fun e' n' s' => eval f e' n' s') t.2.1 t.1 t.2.2
      let (v, _, σ2) ← eval f body env1 σ1
      .ok (v, env, σ2)
    | .Set var e => do
      let (v, env1, σ1) ← eval f e env σ
      match env1.lookup var with
      | some a => .ok (VoidV, env1, σ1.setCell a v)
      | none => .error (.rt "UnboundName")

/-- Modelled from the spec: the `reserved_words` map (same missing file);
name set from spec section 6. -/
def reserved_words (s : String) : Option ExprType :=
  match s with
  | "quote" => some .E_QUOTE
  | "if" => some .E_IF
  | "cond" => some .E_COND
  | "else" => some .E_ELSE
  | "begin" => some .E_BEGIN
  | "and" => some .E_AND
  | "or" => some .E_OR
  | "lambda" => some .E_LAMBDA
  | "define" => some .E_DEFINE
  | "let" => some .E_LET
  | "letrec" => some .E_LETREC
  | "set!" => some .E_SET
  | _ => none

/-- Parse every element of a syntax list (the operand loops of
List::parse).  The parse-time environment records names only
(spec section 9): the source extends it with Void cells but consults
only whether `find` succeeds. -/
def parseList (p : Stx → List String → Res Expr) :
    List Stx → List String → Res (List Expr) :=
  fun l env =>
    match l with
    | [] => .ok []
    | s :: rest => do
      let e ← p s env
      let es ← parseList p rest env
      .ok (e :: es)

/-- Formal-parameter extraction for lambda and the define sugar. -/
def getFormals : List Stx → Res (List String) :=
  fun l =>
    match l with
    | [] => .ok []
    | .SymbolStx s :: rest => do
      let ns ← getFormals rest
      .ok (s :: ns)
    | _ :: _ => .error (.rt "Invalid parameter format for lambda")

/-- Binding-list parsing for `let`: right-hand sides are parsed in the
outer environment; returns bindings and the shadowed names in order. -/
def parseLetBinds (p : Stx → List String → Res Expr) :
    List Stx → List String → Res (List (String × Expr) × List String) :=
  fun l env =>
    match l with
    | [] => .ok ([], [])
    | param :: rest =>
      match param with
      | .ListStx pl =>
        match pl with
        | [nameStx, rhs] =>
          match nameStx with
          | .SymbolStx nm => do
            let e ← p rhs env
            let (bs, ns) ← parseLetBinds p rest env
            .ok ((nm, e) :: bs, nm :: ns)
          | _ => .error (.rt "invalid param format for let 4")
        | _ => .error (.rt "invalid param format for let 3")
      | _ => .error (.rt "invalid param format for let 2")

/-- First pass of `letrec` parsing: collect names and raw right-hand
sides. -/
def parseLetrecNames : List Stx → Res (List (String × Stx)) :=
  fun l =>
    match l with
    | [] => .ok []
    | param :: rest =>
      match param with
      | .ListStx [nameStx, rhs] =>
        match nameStx with
        | .SymbolStx nm => do
          let items ← parseLetrecNames rest
          .ok ((nm, rhs) :: items)
        | _ => .error (.rt "invalid param format for letr")
      | _ => .error (.rt "invalid param format for letr")

/-- Second pass of `letrec` parsing: parse each right-hand side in the
extended environment. -/
def parseBindsWith (p : Stx → List String → Res Expr) :
    List (String × Stx) → List String → Res (List (String × Expr)) :=
  fun items env =>
    match items with
    | [] => .ok []
    | (nm, rhs) :: rest => do
      let e ← p rhs env
      let bs ← parseBindsWith p rest env
      .ok ((nm, e) :: bs)

/-- Clause loop of the cond parser (parser.cpp lines 260-280): an `else`
head is recognized only when the head symbol is `else`, the name `else`
is unbound in the static environment; the clause must then be last and
have a body, and the head is lowered to the literal `#t`. -/
def parseCondClauses (p : Stx → List String → Res Expr) :
    List Stx → List String → Res (List (List Expr)) :=
  fun l env =>
    match l with
    | [] => .ok []
    | argi :: rest =>
      match argi with
      | .ListStx cl =>
        match cl with
        | [] => .error (.rt "empty cond clause (out-of-bounds access in source)")
        | hd :: body => do
          let headE ←
            match hd with
            | .SymbolStx s =>
              if s = "else" ∧ ¬env.contains "else" then
                if !rest.isEmpty then .error (.rt "else must be last clause")
                else if body.isEmpty then .error (.rt "else must has a else clause")
                else .ok Expr.ETrue
              else p hd env
            | _ => p hd env
          let bodyE ← parseList p body env
          let clsRest ← parseCondClauses p rest env
          .ok ((headE :: bodyE) :: clsRest)
      | _ => .error (.rt "Wrong arg format for Cond")

/-- List::parse together with the atom parsers (parser.cpp).  The static
environment is the list of names currently bound (newest first). -/
def parse (fuel : Nat) (s : Stx) (env : List String) : Res Expr :=
  match fuel with
  | 0 => .error .fuel
  | f + 1 =>
    match s with
    | .Number n => .ok (.Fixnum n)
    | .RationalStx n d =>
      if d = 0 then .error (.rt "Invalid denominator") else .ok (.RationalNum n d)
    | .SymbolStx sym => .ok (.Var sym)
    | .StringStx str => .ok (.StringExpr str)
    | .TrueStx => .ok .ETrue
    | .FalseStx => .ok .EFalse
    | .ListStx stxs =>
      match stxs with
      | [] => .ok (.Quote (.ListStx []))
      | hd :: tl =>
        match hd with
        | .SymbolStx op =>
          if env.contains op then do
            let ps ← parseList (fun s' e' => parse f s' e') tl env
            .ok (.Apply (.Var op) ps)
          else
            match primitives op with
            | some pt => do
              let ps ← parseList (fun s' e' => parse f s' e') tl env
              match pt with
              | .E_PLUS =>
                match ps with
                | [a, b] => .ok (.Plus a b)
                | _ => .ok (.PlusVar ps)
              | .E_MINUS =>
                match ps with
                | [a, b] => .ok (.Minus a b)
                | _ => .ok (.MinusVar ps)
              | .E_MUL =>
                match ps with
                | [a, b] => .ok (.Mult a b)
                | _ => .ok (.MultVar ps)
              | .E_DIV =>
                match ps with
                | [a, b] => .ok (.Div a b)
                | _ => .ok (.DivVar ps)
              | .E_MODULO =>
                match ps with
                | [a, b] => .ok (.Modulo a b)
                | _ => .error (.rt "Wrong number of arguments for modulo")
              | .E_LIST => .ok (.ListFunc ps)
              | .E_LT =>
                match ps with
                | [a, b] => .ok (.Less a b)
                | _ => .ok (.LessVar ps)
              | .E_LE =>
                match ps with
                | [a, b] => .ok (.LessEq a b)
                | _ => .ok (.LessEqVar ps)
              | .E_EQ =>
                match ps with
                | [a, b] => .ok (.Equal a b)
                | _ => .ok (.EqualVar ps)
              | .E_GE =>
                match ps with
                | [a, b] => .ok (.GreaterEq a b)
                | _ => .ok (.GreaterEqVar ps)
              | .E_GT =>
                match ps with
                | [a, b] => .ok (.Greater a b)
                | _ => .ok (.GreaterVar ps)
              | .E_AND => .ok (.AndVar ps)
              | .E_OR => .ok (.OrVar ps)
              | .E_NOT =>
                match ps with
                | [a] => .ok (.Not a)
                | _ => .error (.rt "Wrong arg number for not")
              | .E_CONS =>
                match ps with
                | [a, b] => .ok (.Cons a b)
                | _ => .error (.rt "Wrong arg number for cons")
              | .E_CAR =>
                match ps with
                | [a] => .ok (.Car a)
                | _ => .error (.rt "Wrong arg number for car")
              | .E_CDR =>
                match ps with
                | [a] => .ok (.Cdr a)
                | _ => .error (.rt "Wrong arg number for cdr")
              | .E_LISTQ =>
                match ps with
                | [a] => .ok (.IsList a)
                | _ => .error (.rt "Wrong arg number for list?")
              | .E_EQQ =>
                match ps with
                | [a, b] => .ok (.IsEq a b)
                | _ => .error (.rt "Wrong arg number for eq?")
              | .E_BOOLQ =>
                match ps with
                | [a] => .ok (.IsBoolean a)
                | _ => .error (.rt "Wrong arg number for boolean?")
              | .E_INTQ =>
                match ps with
                | [a] => .ok (.IsFixnum a)
                | _ => .error (.rt "Wrong arg number for number?")
              | .E_NULLQ =>
                match ps with
                | [a] => .ok (.IsNull a)
                | _ => .error (.rt "Wrong arg number for null?")
              | .E_PAIRQ =>
                match ps with
                | [a] => .ok (.IsPair a)
                | _ => .error (.rt "Wrong arg number for pair?")
              | .E_PROCQ =>
                match ps with
                | [a] => .ok (.IsProcedure a)
                | _ => .error (.rt "Wrong arg number for procedure?")
              | .E_SYMBOLQ =>
                match ps with
                | [a] => .ok (.IsSymbol a)
                | _ => .error (.rt "Wrong arg number for symbol?")
              | .E_STRINGQ =>
                match ps with
                | [a] => .ok (.IsString a)
                | _ => .error (.rt "Wrong arg number for string?")
              | .E_VOID =>
                match ps with
                | [] => .ok .MakeVoid
                | _ => .error (.rt "Wrong arg number for void")
              | .E_DISPLAY =>
                match ps with
                | [a] => .ok (.Display a)
                | _ => .error (.rt "Wrong arg number for display")
              | .E_EXIT =>
                match ps with
                | [] => .ok .Exit
                | _ => .error (.rt "Wrong arg number for Exit")
              | .E_SETCAR =>
                if stxs.length ≠ 3 then .error (.rt "Wrong arg num for setcar!")
                else
                  match ps with
                  | [a, b] => .ok (.SetCar a b)
                  | _ => .error (.rt "unreachable")
              | .E_SETCDR =>
                if stxs.length ≠ 3 then .error (.rt "Wrong arg num for setcdr!")
                else
                  match ps with
                  | [a, b] => .ok (.SetCdr a b)
                  | _ => .error (.rt "unreachable")
              | _ => .error (.rt "What else could it be?")
            | none =>
              match reserved_words op with
              | some rw =>
                match rw with
                | .E_QUOTE =>
                  match tl with
                  | [x] => .ok (.Quote x)
                  | _ => .error (.rt "Invalid quote format")
                | .E_IF =>
                  match tl with
                  | [c, t, e] => do
                    let pc ← parse f c env
                    let pt2 ← parse f t env
                    let pe ← parse f e env
                    .ok (.If pc pt2 pe)
                  | _ => .error (.rt "Invalid if format")
                | .E_COND =>
                  match tl with
                  | [] => .error (.rt "Wrong arg num for Cond")
                  | _ => do
                    let cls ← parseCondClauses (fun s' e' => parse f s' e') tl env
                    .ok (.Cond cls)
                | .E_BEGIN => do
                  let es ← parseList (fun s' e' => parse f s' e') tl env
                  .ok (.Begin es)
                | .E_LAMBDA =>
                  if tl.length < 2 then .error (.rt "Invalid arg num of lambda")
                  else
                    match tl with
                    | paras :: bodyStxs =>
                      match paras with
                      | .ListStx pl => do
                        let formals ← getFormals pl
                        let penv := formals.foldl (fun e n => n :: e) env
                        let body ← parseList (fun s' e' => parse f s' e') bodyStxs penv
                        .ok (.Lambda formals (.Begin body))
                      | _ => .error (.rt "Invalid arg format for lambda")
                    | [] => .error (.rt "unreachable")
                | .E_DEFINE =>
                  if tl.length < 2 then .error (.rt "Invalid arg num for Define")
                  else
                    match tl with
                    | nameStx :: bodyStxs =>
                      match nameStx with
                      | .SymbolStx v =>
                        if (primitives v).isSome || (reserved_words v).isSome then
                          .error (.rt "the var's name shouldn't be a reserved name")
                        else do
                          let es ← parseList (fun s' e' => parse f s' e') bodyStxs env
                          .ok (.Define v (.Begin es))
                      | .ListStx fl =>
                        match fl with
                        | [] => .error (.rt "no argument in define's function")
                        | fnStx :: formalStxs =>
                          match fnStx with
                          | .SymbolStx v =>
                            if (primitives v).isSome || (reserved_words v).isSome then
                              .error (.rt "the var's name shouldn't be a reserved name")
                            else do
                              let formals ← getFormals formalStxs
                              let penv := formals.foldl (fun e n => n :: e) env
                              let es ←
                                parseList (fun s' e' => parse f s' e') bodyStxs penv
                              .ok (.Define v (.Lambda formals (.Begin es)))
                          | _ => .error (.rt "invalid var type for define")
                      | _ => .error (.rt "invalid var type for define")
                    | [] => .error (.rt "unreachable")
                | .E_LET =>
                  if tl.length ≤ 1 then .error (.rt "invalid var num for LET")
                  else
                    match tl with
                    | paramLst :: bodyStxs =>
                      match paramLst with
                      | .ListStx pl => do
                        let (binds, names) ←
                          parseLetBinds (fun s' e' => parse f s' e') pl env
                        let penv := names.foldl (fun e n => n :: e) env
                        let body ← parseList (fun s' e' => parse f s' e') bodyStxs penv
                        .ok (.Let binds (.Begin body))
                      | _ => .error (.rt "invalid param format for let 1")
                    | [] => .error (.rt "unreachable")
                | .E_LETREC =>
                  if tl.length ≤ 1 then .error (.rt "invalid var num for letr")
                  else
                    match tl with
                    | paramLst :: bodyStxs =>
                      match paramLst with
                      | .ListStx pl => do
                        let items ← parseLetrecNames pl
                        let penv :=
                          (items.map Prod.fst).foldl (fun e n => n :: e) env
                        let binds ← parseBindsWith (fun s' e' => parse f s' e') items penv
                        let body ← parseList (fun s' e' => parse f s' e') bodyStxs penv
                        .ok (.Letrec binds (.Begin body))
                      | _ => .error (.rt "invalid param format for letr")
                    | [] => .error (.rt "unreachable")
                | .E_SET =>
                  match tl with
                  | [target, rhs] =>
                    match target with
                    | .SymbolStx nm => do
                      let e ← parse f rhs env
                      .ok (.Set nm e)
                    | _ => .error (.rt "target needs to be a symbol")
                  | _ => .error (.rt "Wrong arg num for set!")
                | _ => .error (.rt ("Unknown reserved word: " ++ op))
              | none => do
                let ps ← parseList (fun s' e' => parse f s' e') tl env
                .ok (.Apply (.Var op) ps)
        | _ => do
          let ps ← parseList (fun s' e' => parse f s' e') tl env
          let ph ← parse f hd env
          .ok (.Apply ph ps)

/-- Read back a proper list from the heap (observer used by theorems). -/
def readListVal (fuel : Nat) (σ : State) (v : Value) : Option (List Value) :=
  match fuel with
  | 0 => none
  | f + 1 =>
    match v with
    | NullV => some []
    | PairV a =>
      match σ.pairs[a]? with
      | some cell => (readListVal f σ cell.2).map (cell.1 :: ·)
      | none => none
    | _ => none

/-- The mutually recursive even?/odd? letrec of spec section 8,
scenario 3, as the parser would produce it:
(letrec ((even? (lambda (n) (if (= n 0) #t (odd? (- n 1)))))
         (odd? (lambda (n) (if (= n 0) #f (even? (- n 1))))))
  (even? 10)). -/
def evenOddProg : Expr :=
  .Letrec
    [("even?", .Lambda ["n"] (.Begin [.If (.Equal (.Var "n") (.Fixnum 0)) .ETrue
        (.Apply (.Var "odd?") [.Minus (.Var "n") (.Fixnum 1)])])),
     ("odd?", .Lambda ["n"] (.Begin [.If (.Equal (.Var "n") (.Fixnum 0)) .EFalse
        (.Apply (.Var "even?") [.Minus (.Var "n") (.Fixnum 1)])]))]
    (.Begin [.Apply (.Var "even?") [.Fixnum 10]])

/-- A letrec whose first right-hand side is a closure referencing the
sibling bound after it: (letrec ((f (lambda () g)) (g 7)) (f)).
Calling f in the body must observe g's final value 7, not Void. -/
def letrecPeekProg : Expr :=
  .Letrec
    [("f", .Lambda [] (.Begin [.Var "g"])),
     ("g", .Fixnum 7)]
    (.Begin [.Apply (.Var "f") []])

/-- Syntax of (define + (lambda (a b) (list a b))) — spec scenario 6. -/
def definePlusStx : Stx :=
  .ListStx [.SymbolStx "define", .SymbolStx "+",
    .ListStx [.SymbolStx "lambda", .ListStx [.SymbolStx "a", .SymbolStx "b"],
      .ListStx [.SymbolStx "list", .SymbolStx "a", .SymbolStx "b"]]]

/-- Syntax of (let ((+ (lambda (a b) (list a b)))) (+ 1 2)): the same
shadowing expressed through a binding form whose names are recorded in
the static environment. -/
def letShadowStx : Stx :=
  .ListStx [.SymbolStx "let",
    .ListStx [.ListStx [.SymbolStx "+",
      .ListStx [.SymbolStx "lambda", .ListStx [.SymbolStx "a", .SymbolStx "b"],
        .ListStx [.SymbolStx "list", .SymbolStx "a", .SymbolStx "b"]]]],
    .ListStx [.SymbolStx "+", .Number 1, .Number 2]]

/-- The tail of Var::eval after the identifier checks and the failed
numeric reinterpretation: environment lookup, then primitive synthesis. -/
def varFallback (x : String) (env : Assoc) (σ : State) :
    Res (Value × Assoc × State) :=
  match find x env σ with
  | some v => .ok (v, env, σ)
  | none =>
    match primitives x with
    | some pt =>
      match primitive_map pt with
      | some proto =>
        .ok (ProcV proto.2 proto.1 [] σ.nextId, env, { σ with nextId := σ.nextId + 1 })
      | none => .error (.rt "The variable is not define in the scope")
    | none => .error (.rt "The variable is not define in the scope")

/-- The primitive names that have a primitive_map prototype: these are
the ones Var::eval can synthesize a first-class procedure for. -/
def workingPrimNames : List String :=
  ["void", "exit", "boolean?", "number?", "null?", "pair?", "procedure?",
   "symbol?", "string?", "display", "+", "-", "*", "/", "modulo", "expt", "eq?"]

/-- The primitive names with no primitive_map prototype: Var::eval on
them falls through to the unbound-variable error. -/
def missingPrimNames : List String :=
  ["car", "cdr", "cons", "list", "list?", "set-car!", "set-cdr!",
   "<", "<=", "=", ">=", ">", "not"]

/-- The prototype Var::eval uses for a primitive name (body, formals). -/
def primProto (nm : String) : Expr × List String :=
  ((primitives nm).bind primitive_map).getD (.MakeVoid, [])

/-- The alphabet of the numeric-identifier grammar of spec section 4.5. -/
def okChar (c : Char) : Bool :=
  c.isDigit || c = '+' || c = '-' || c = '.' || c = 'e' || c = 'E'

theorem natAbs_tmod (a b : Int) : (a.tmod b).natAbs = a.natAbs % b.natAbs := by
  cases a with
  | ofNat m =>
    cases b with
    | ofNat n => rfl
    | negSucc n => rfl
  | negSucc m =>
    cases b with
    | ofNat n =>
      show (-(Int.ofNat (Nat.succ m % n))).natAbs = _
      rw [Int.natAbs_neg]
      rfl
    | negSucc n =>
      show (-(Int.ofNat (Nat.succ m % Nat.succ n))).natAbs = _
      rw [Int.natAbs_neg]
      rfl


theorem natAbs_tmod_lt (a b : Int) (hb : b ≠ 0) :
    (a.tmod b).natAbs < b.natAbs := by
  have h2 : 0 < b.natAbs := Int.natAbs_pos.mpr hb
  simpa [natAbs_tmod] using Nat.mod_lt a.natAbs h2

theorem cGcdAux_congr :
    ∀ (f g : Nat) (a b : Int), b.natAbs < f → b.natAbs < g →
      cGcdAux f a b = cGcdAux g a b := by
  intro f
  induction f with
  | zero => intro g a b hf; omega
  | succ f ih =>
    intro g a b hf hg
    match g, hg with
    | g' + 1, hg =>
      show (if b = 0 then a else cGcdAux f b (a.tmod b)) =
        (if b = 0 then a else cGcdAux g' b (a.tmod b))
      by_cases hb : b = 0
      · simp [hb]
      · simp only [hb, ite_false]
        have hlt := natAbs_tmod_lt a b hb
        exact ih g' b (a.tmod b) (by omega) (by omega)

theorem cGcd_zero (a : Int) : cGcd a 0 = a := by
  rfl

theorem cGcd_rec (a b : Int) (h : b ≠ 0) : cGcd a b = cGcd b (a.tmod b) := by
  show cGcdAux (b.natAbs + 1) a b = _
  have h1 : 0 < b.natAbs := Int.natAbs_pos.mpr h
  have h2 : cGcdAux (b.natAbs + 1) a b = if b = 0 then a else cGcdAux b.natAbs b (a.tmod b) := rfl
  rw [h2]
  simp only [h, ite_false]
  exact cGcdAux_congr b.natAbs ((a.tmod b).natAbs + 1) b (a.tmod b)
    (natAbs_tmod_lt a b h) (by omega)

/-- The magnitude of `cGcd` is the mathematical gcd. -/
theorem cGcd_natAbs (a b : Int) : (cGcd a b).natAbs = Int.gcd a b := by
  generalize hfuel : b.natAbs = n
  induction n using Nat.strong_induction_on generalizing a b with
  | _ n ih =>
    by_cases hb : b = 0
    · subst hb
      simp [cGcd_zero, Int.gcd]
    · rw [cGcd_rec a b hb]
      have h1 : (a.tmod b).natAbs = a.natAbs % b.natAbs := natAbs_tmod a b
      have h2 : 0 < b.natAbs := Int.natAbs_pos.mpr hb
      have hlt : (a.tmod b).natAbs < n := by
        rw [h1, ← hfuel]
        exact Nat.mod_lt _ h2
      have := ih _ hlt b (a.tmod b) rfl
      rw [this]
      unfold Int.gcd
      rw [natAbs_tmod]
      rw [Nat.gcd_comm b.natAbs (a.natAbs % b.natAbs),
        ← Nat.gcd_rec b.natAbs a.natAbs]
      exact Nat.gcd_comm _ _

theorem cGcd_dvd_left (a b : Int) : cGcd a b ∣ a := by
  have h := cGcd_natAbs a b
  have h2 : ((cGcd a b).natAbs : Int) ∣ a := by
    rw [h]
    exact Int.gcd_dvd_left
  exact (Int.natAbs_dvd).mp h2

theorem cGcd_dvd_right (a b : Int) : cGcd a b ∣ b := by
  have h := cGcd_natAbs a b
  have h2 : ((cGcd a b).natAbs : Int) ∣ b := by
    rw [h]
    exact Int.gcd_dvd_right
  exact (Int.natAbs_dvd).mp h2

theorem cGcd_ne_zero_left (a b : Int) (ha : a ≠ 0) : cGcd a b ≠ 0 := by
  intro h
  have h2 := cGcd_natAbs a b
  rw [h] at h2
  have h3 : Int.gcd a b = 0 := by simpa using h2.symm
  rw [Int.gcd_eq_zero_iff] at h3
  exact ha h3.1

theorem cGcd_ne_zero_right (a b : Int) (hb : b ≠ 0) : cGcd a b ≠ 0 := by
  intro h
  have h2 := cGcd_natAbs a b
  rw [h] at h2
  have h3 : Int.gcd a b = 0 := by simpa using h2.symm
  rw [Int.gcd_eq_zero_iff] at h3
  exact hb h3.2


theorem ratOK_of_ne_rat {v : Value} (h : ∀ n d i, v ≠ RatV n d i) : ratOK v := by
  intro n d i hv
  exact absurd hv (h n d i)

theorem ratOK_int (n : Int) : ratOK (IntV n) := by
  intro _ _ _ h
  cases h

/-- Reducing by the mathematical gcd yields a positive coprime pair. -/
theorem gcd_reduce_core (n1 d1 : Int) (hd1 : 0 < d1) :
    0 < d1.tdiv (Int.gcd n1 d1 : Int) ∧
      Int.gcd (n1.tdiv (Int.gcd n1 d1 : Int)) (d1.tdiv (Int.gcd n1 d1 : Int)) = 1 := by
  have hne : Int.gcd n1 d1 ≠ 0 := by
    rw [Ne, Int.gcd_eq_zero_iff]
    rintro ⟨-, h2⟩
    omega
  have hgpos : (0 : Int) < (Int.gcd n1 d1 : Int) := by
    exact_mod_cast Nat.pos_of_ne_zero hne
  have hdvd1 : (Int.gcd n1 d1 : Int) ∣ n1 := Int.gcd_dvd_left
  have hdvd2 : (Int.gcd n1 d1 : Int) ∣ d1 := Int.gcd_dvd_right
  have htd : d1.tdiv (Int.gcd n1 d1 : Int) = d1 / (Int.gcd n1 d1 : Int) :=
    Int.tdiv_eq_ediv_of_dvd hdvd2
  have htn : n1.tdiv (Int.gcd n1 d1 : Int) = n1 / (Int.gcd n1 d1 : Int) :=
    Int.tdiv_eq_ediv_of_dvd hdvd1
  constructor
  · rw [htd]
    exact Int.ediv_pos_of_pos_of_dvd hd1 (le_of_lt hgpos) hdvd2
  · rw [htd, htn]
    exact Int.gcd_div_gcd_div_gcd (by exact_mod_cast Nat.pos_of_ne_zero hne)

/-- Any value built by the (spec-modelled) `RationalV` on a nonzero
denominator satisfies the numeric invariant. -/
theorem RationalV_ratOK (n d : Int) (c : Nat) (hd : d ≠ 0) :
    ratOK (RationalV n d c).1 := by
  unfold RationalV
  have hd1pos : 0 < (if d < 0 then -d else d) := by
    split <;> omega
  have core := gcd_reduce_core (if d < 0 then -n else n) (if d < 0 then -d else d) hd1pos
  by_cases hone :
      (if d < 0 then -d else d).tdiv
        (Int.gcd (if d < 0 then -n else n) (if d < 0 then -d else d) : Int) = 1
  · simp only [hone, ite_true]
    exact ratOK_int _
  · simp only [hone, ite_false]
    intro n' d' i' hv
    cases hv
    exact ⟨by omega, core.2⟩


theorem tdiv_ne_zero_of_dvd {t x : Int} (ht : t ∣ x) (hx : x ≠ 0) :
    x.tdiv t ≠ 0 :=
  fun h0 => hx (Int.eq_zero_of_tdiv_eq_zero ht h0)

theorem mkRat_ratOK (n d : Int) (σ : State) (hd : d ≠ 0) :
    ratOK (mkRat n d σ).1 := by
  unfold mkRat
  exact RationalV_ratOK n d σ.nextId hd

theorem ratOK_den_pos {n d : Int} {i : Nat} (h : ratOK (RatV n d i)) : 1 < d :=
  (h n d i rfl).1

theorem res_pair_fst {p : Value × State} {v : Value} {σ' : State}
    (h : (Except.ok p : Res (Value × State)) = .ok (v, σ')) : p.1 = v := by
  injection h with h2
  exact congrArg Prod.fst h2

theorem ebind_ok {ε α β : Type} (x : α) (f : α → Except ε β) :
    (Except.ok x : Except ε α) >>= f = f x := rfl

theorem ebind_error {ε α β : Type} (e : ε) (f : α → Except ε β) :
    (Except.error e : Except ε α) >>= f = .error e := rfl

theorem plusRator_ratOK (v1 v2 : Value) (σ : State) (v : Value) (σ' : State)
    (h1 : ratOK v1) (h2 : ratOK v2)
    (h : plusRator v1 v2 σ = .ok (v, σ')) : ratOK v := by
  cases v1 <;> cases v2 <;> simp only [plusRator] at h <;>
    try exact Except.noConfusion h
  case IntV.IntV a b =>
    rw [← res_pair_fst h]
    exact ratOK_int _
  case IntV.RatV i rn rd ri =>
    have hd : rd ≠ 0 := by have := (h2 rn rd ri rfl).1; omega
    rw [← res_pair_fst h]
    exact mkRat_ratOK _ _ _ hd
  case RatV.IntV rn rd ri i =>
    have hd : rd ≠ 0 := by have := (h1 rn rd ri rfl).1; omega
    rw [← res_pair_fst h]
    exact mkRat_ratOK _ _ _ hd
  case RatV.RatV n1 d1 i1 n2 d2 i2 =>
    have hd1 : 1 < d1 := (h1 n1 d1 i1 rfl).1
    have hd2 : 1 < d2 := (h2 n2 d2 i2 rfl).1
    have hdd : d1 * d2 ≠ 0 := by positivity
    split at h
    · rw [← res_pair_fst h]
      exact ratOK_int _
    · rw [← res_pair_fst h]
      exact mkRat_ratOK _ _ _
        (tdiv_ne_zero_of_dvd (cGcd_dvd_left (d1 * d2) (n1 * d2 + n2 * d1)) hdd)

theorem minusRator_ratOK (v1 v2 : Value) (σ : State) (v : Value) (σ' : State)
    (h1 : ratOK v1) (h2 : ratOK v2)
    (h : minusRator v1 v2 σ = .ok (v, σ')) : ratOK v := by
  cases v1 <;> cases v2 <;> simp only [minusRator] at h <;>
    try exact Except.noConfusion h
  case IntV.IntV a b =>
    rw [← res_pair_fst h]
    exact ratOK_int _
  case IntV.RatV i rn rd ri =>
    have hd : rd ≠ 0 := by have := (h2 rn rd ri rfl).1; omega
    rw [← res_pair_fst h]
    exact mkRat_ratOK _ _ _ hd
  case RatV.IntV rn rd ri i =>
    have hd : rd ≠ 0 := by have := (h1 rn rd ri rfl).1; omega
    rw [← res_pair_fst h]
    exact mkRat_ratOK _ _ _ hd
  case RatV.RatV n1 d1 i1 n2 d2 i2 =>
    have hd1 : 1 < d1 := (h1 n1 d1 i1 rfl).1
    have hd2 : 1 < d2 := (h2 n2 d2 i2 rfl).1
    have hdd : d1 * d2 ≠ 0 := by positivity
    split at h
    · rw [← res_pair_fst h]
      exact ratOK_int _
    · rw [← res_pair_fst h]
      exact mkRat_ratOK _ _ _
        (tdiv_ne_zero_of_dvd (cGcd_dvd_left (d1 * d2) (n1 * d2 - n2 * d1)) hdd)

theorem multRator_ratOK (v1 v2 : Value) (σ : State) (v : Value) (σ' : State)
    (h1 : ratOK v1) (h2 : ratOK v2)
    (h : multRator v1 v2 σ = .ok (v, σ')) : ratOK v := by
  cases v1 <;> cases v2 <;> simp only [multRator] at h <;>
    try exact Except.noConfusion h
  case IntV.IntV a b =>
    rw [← res_pair_fst h]
    exact ratOK_int _
  case IntV.RatV i rn rd ri =>
    have hd : rd ≠ 0 := by have := (h2 rn rd ri rfl).1; omega
    split at h
    · rw [← res_pair_fst h]
      exact ratOK_int _
    · rw [← res_pair_fst h]
      exact mkRat_ratOK _ _ _
        (tdiv_ne_zero_of_dvd (cGcd_dvd_right (i * rn) rd) hd)
  case RatV.IntV rn rd ri i =>
    have hd : rd ≠ 0 := by have := (h1 rn rd ri rfl).1; omega
    split at h
    · rw [← res_pair_fst h]
      exact ratOK_int _
    · rw [← res_pair_fst h]
      exact mkRat_ratOK _ _ _
        (tdiv_ne_zero_of_dvd (cGcd_dvd_right (i * rn) rd) hd)
  case RatV.RatV n1 d1 i1 n2 d2 i2 =>
    have hd1 : 1 < d1 := (h1 n1 d1 i1 rfl).1
    have hd2 : 1 < d2 := (h2 n2 d2 i2 rfl).1
    have hdd : d1 * d2 ≠ 0 := by positivity
    split at h
    · rw [← res_pair_fst h]
      exact ratOK_int _
    · rw [← res_pair_fst h]
      exact mkRat_ratOK _ _ _
        (tdiv_ne_zero_of_dvd (cGcd_dvd_right (n1 * n2) (d1 * d2)) hdd)

theorem divRator_ratOK (v1 v2 : Value) (σ : State) (v : Value) (σ' : State)
    (h1 : ratOK v1) (h2 : ratOK v2)
    (h : divRator v1 v2 σ = .ok (v, σ')) : ratOK v := by
  cases v1 <;> cases v2 <;> simp only [divRator] at h <;>
    try exact Except.noConfusion h
  case IntV.IntV a b =>
    split at h
    · exact Except.noConfusion h
    · split at h
      · rw [← res_pair_fst h]
        exact ratOK_int _
      · rw [← res_pair_fst h]
        refine mkRat_ratOK _ _ _ (tdiv_ne_zero_of_dvd (cGcd_dvd_right a b) ?_)
        assumption
  case IntV.RatV i rn rd ri =>
    split at h
    · exact Except.noConfusion h
    · split at h
      · rw [← res_pair_fst h]
        exact ratOK_int _
      · rw [← res_pair_fst h]
        refine mkRat_ratOK _ _ _ (tdiv_ne_zero_of_dvd (cGcd_dvd_left rn (i * rd)) ?_)
        assumption
  case RatV.IntV rn rd ri i =>
    have hd : rd ≠ 0 := by have := (h1 rn rd ri rfl).1; omega
    split at h
    · exact Except.noConfusion h
    · split at h
      · rw [← res_pair_fst h]
        exact ratOK_int _
      · rw [← res_pair_fst h]
        refine mkRat_ratOK _ _ _
          (tdiv_ne_zero_of_dvd (cGcd_dvd_left (rd * i) rn) (mul_ne_zero hd ?_))
        assumption
  case RatV.RatV n1 d1 i1 n2 d2 i2 =>
    have hd1 : 1 < d1 := (h1 n1 d1 i1 rfl).1
    split at h
    · exact Except.noConfusion h
    · split at h
      · rw [← res_pair_fst h]
        exact ratOK_int _
      · rw [← res_pair_fst h]
        refine mkRat_ratOK _ _ _
          (tdiv_ne_zero_of_dvd (cGcd_dvd_right (n1 * d2) (d1 * n2))
            (mul_ne_zero (by omega) ?_))
        assumption

theorem foldRator_ratOK
    (bin : Value → Value → State → Res (Value × State))
    (binOK : ∀ v1 v2 σ v σ', ratOK v1 → ratOK v2 →
      bin v1 v2 σ = .ok (v, σ') → ratOK v) :
    ∀ (args : List Value) (a : Value) (σ : State) (v : Value) (σ' : State),
      ratOK a → (∀ x ∈ args, ratOK x) →
      foldRator bin a args σ = .ok (v, σ') → ratOK v := by
  intro args
  induction args with
  | nil =>
    intro a σ v σ' ha _ h
    simp [foldRator] at h
    rw [← h.1]
    exact ha
  | cons b rest ih =>
    intro a σ v σ' ha hall h
    simp only [foldRator] at h
    cases hb : bin a b σ with
    | error e =>
      rw [hb] at h
      simp only [ebind_error] at h
      exact Except.noConfusion h
    | ok p =>
      obtain ⟨a2, σ2⟩ := p
      rw [hb] at h
      simp only [ebind_ok] at h
      exact ih a2 σ2 v σ'
        (binOK a b σ a2 σ2 ha (hall b (by simp)) hb)
        (fun x hx => hall x (by simp [hx])) h

theorem plusVarRator_ratOK (args : List Value) (σ : State) (v : Value) (σ' : State)
    (hall : ∀ x ∈ args, ratOK x)
    (h : plusVarRator args σ = .ok (v, σ')) : ratOK v := by
  match args with
  | [] =>
    simp [plusVarRator] at h
    rw [← h.1]
    exact ratOK_int _
  | [a] =>
    simp [plusVarRator] at h
    rw [← h.1]
    exact hall a (by simp)
  | a :: b :: rest =>
    exact foldRator_ratOK plusRator plusRator_ratOK (b :: rest) a σ v σ'
      (hall a (by simp)) (fun x hx => hall x (by simp at hx ⊢; tauto)) h

theorem minusVarRator_ratOK (args : List Value) (σ : State) (v : Value) (σ' : State)
    (hall : ∀ x ∈ args, ratOK x)
    (h : minusVarRator args σ = .ok (v, σ')) : ratOK v := by
  match args with
  | [] => simp [minusVarRator] at h
  | [a] =>
    exact minusRator_ratOK (IntV 0) a σ v σ' (ratOK_int 0) (hall a (by simp)) h
  | a :: b :: rest =>
    exact foldRator_ratOK minusRator minusRator_ratOK (b :: rest) a σ v σ'
      (hall a (by simp)) (fun x hx => hall x (by simp at hx ⊢; tauto)) h

theorem multVarRator_ratOK (args : List Value) (σ : State) (v : Value) (σ' : State)
    (hall : ∀ x ∈ args, ratOK x)
    (h : multVarRator args σ = .ok (v, σ')) : ratOK v := by
  match args with
  | [] =>
    simp [multVarRator] at h
    rw [← h.1]
    exact ratOK_int _
  | [a] =>
    simp [multVarRator] at h
    rw [← h.1]
    exact hall a (by simp)
  | a :: b :: rest =>
    exact foldRator_ratOK multRator multRator_ratOK (b :: rest) a σ v σ'
      (hall a (by simp)) (fun x hx => hall x (by simp at hx ⊢; tauto)) h

theorem divVarRator_ratOK (args : List Value) (σ : State) (v : Value) (σ' : State)
    (hall : ∀ x ∈ args, ratOK x)
    (h : divVarRator args σ = .ok (v, σ')) : ratOK v := by
  match args with
  | [] => simp [divVarRator] at h
  | [a] =>
    exact divRator_ratOK (IntV 1) a σ v σ' (ratOK_int 1) (hall a (by simp)) h
  | a :: b :: rest =>
    exact foldRator_ratOK divRator divRator_ratOK (b :: rest) a σ v σ'
      (hall a (by simp)) (fun x hx => hall x (by simp at hx ⊢; tauto)) h

/-- Claim C1: every numeric value produced by the arithmetic primitives
+, -, *, / (binary and variadic evalRators), on operands satisfying the
numeric invariant, again satisfies it: a Rational result has denominator
greater than 1 (hence positive) with coprime numerator and denominator,
and a value whose mathematical denominator is 1 is an Int, never a
Rational.  (`RationalV` is spec-modelled: value.hpp is not under src/.) -/
theorem C1_arith_normalized :
    (∀ v1 v2 σ v σ', ratOK v1 → ratOK v2 →
        plusRator v1 v2 σ = .ok (v, σ') → ratOK v) ∧
    (∀ v1 v2 σ v σ', ratOK v1 → ratOK v2 →
        minusRator v1 v2 σ = .ok (v, σ') → ratOK v) ∧
    (∀ v1 v2 σ v σ', ratOK v1 → ratOK v2 →
        multRator v1 v2 σ = .ok (v, σ') → ratOK v) ∧
    (∀ v1 v2 σ v σ', ratOK v1 → ratOK v2 →
        divRator v1 v2 σ = .ok (v, σ') → ratOK v) ∧
    (∀ args σ v σ', (∀ x ∈ args, ratOK x) →
        plusVarRator args σ = .ok (v, σ') → ratOK v) ∧
    (∀ args σ v σ', (∀ x ∈ args, ratOK x) →
        minusVarRator args σ = .ok (v, σ') → ratOK v) ∧
    (∀ args σ v σ', (∀ x ∈ args, ratOK x) →
        multVarRator args σ = .ok (v, σ') → ratOK v) ∧
    (∀ args σ v σ', (∀ x ∈ args, ratOK x) →
        divVarRator args σ = .ok (v, σ') → ratOK v) :=
  ⟨plusRator_ratOK, minusRator_ratOK, multRator_ratOK, divRator_ratOK,
   plusVarRator_ratOK, minusVarRator_ratOK, multVarRator_ratOK, divVarRator_ratOK⟩

/-- Witness for C1: (/ 2 4) is the normalized rational 1/2. -/
theorem C1_arith_normalized_witness : ratOK (RatV 1 2 0) :=
  C1_arith_normalized.2.2.2.1 (IntV 2) (IntV 4) State.init (RatV 1 2 0)
    ⟨[], [], 1⟩ (ratOK_int 2) (ratOK_int 4) rfl

/-- Claim C8 counterexample: the two rational literals 1/2 and 1/2 are
mathematically equal numeric values, yet eq? on them returns #f — the
IsEq evalRator has no Rational case and falls through to pointer
identity, and the two literals are distinct heap objects. -/
theorem C8_counterexample :
    eval 5 (.IsEq (.RationalNum 1 2) (.RationalNum 1 2)) [] State.init =
      .ok (BoolV false, [], ⟨[], [], 2⟩) := rfl

/-- Claim C8 (amended): eq? is value equality on Int (not on Rational),
booleans and symbols, true on Null/Null and Void/Void, and pointer
identity on everything else — pairs, procedures, and also rationals
(and strings), where two distinct objects compare unequal regardless of
their numeric value. -/
theorem C8_eq_amended :
    (∀ a b, isEqRator (IntV a) (IntV b) = BoolV (a == b)) ∧
    (∀ b1 b2, isEqRator (BoolV b1) (BoolV b2) = BoolV (b1 == b2)) ∧
    (∀ s1 s2, isEqRator (SymV s1) (SymV s2) = BoolV (s1 == s2)) ∧
    isEqRator NullV NullV = BoolV true ∧
    isEqRator VoidV VoidV = BoolV true ∧
    (∀ a b, isEqRator (PairV a) (PairV b) = BoolV (a == b)) ∧
    (∀ p1 e1 n1 i1 p2 e2 n2 i2,
      isEqRator (ProcV p1 e1 n1 i1) (ProcV p2 e2 n2 i2) = BoolV (i1 == i2)) ∧
    (∀ n1 d1 i1 n2 d2 i2,
      isEqRator (RatV n1 d1 i1) (RatV n2 d2 i2) = BoolV (i1 == i2)) :=
  ⟨fun _ _ => rfl, fun _ _ => rfl, fun _ _ => rfl, rfl, rfl,
   fun _ _ => rfl, fun _ _ _ _ _ _ _ _ => rfl, fun _ _ _ _ _ _ => rfl⟩

/-- Claim C9: set-car! and set-cdr! on a pair mutate the pair cell in
place — subsequent car/cdr of the same pair observe the new value, every
other pair cell and every environment cell is unchanged — and return
Void.  (Spec-modelled: the two evalRator bodies are TODO stubs in
evaluation.cpp; the spec fixes this behaviour.) -/
theorem C9_set_car_cdr :
    ∀ (σ : State) (a : Nat) (car cdr v : Value),
      σ.pairs[a]? = some (car, cdr) →
      (setCarRator (PairV a) v σ =
          .ok (VoidV, { σ with pairs := σ.pairs.set a (v, cdr) }) ∧
       carRator (PairV a) { σ with pairs := σ.pairs.set a (v, cdr) } =
          .ok (v, { σ with pairs := σ.pairs.set a (v, cdr) }) ∧
       ({ σ with pairs := σ.pairs.set a (v, cdr) } : State).cells = σ.cells ∧
       (∀ b, b ≠ a → (σ.pairs.set a (v, cdr))[b]? = σ.pairs[b]?)) ∧
      (setCdrRator (PairV a) v σ =
          .ok (VoidV, { σ with pairs := σ.pairs.set a (car, v) }) ∧
       cdrRator (PairV a) { σ with pairs := σ.pairs.set a (car, v) } =
          .ok (v, { σ with pairs := σ.pairs.set a (car, v) }) ∧
       ({ σ with pairs := σ.pairs.set a (car, v) } : State).cells = σ.cells ∧
       (∀ b, b ≠ a → (σ.pairs.set a (car, v))[b]? = σ.pairs[b]?)) := by
  intro σ a car cdr v h
  have hlt : a < σ.pairs.length := by
    by_contra hge
    rw [List.getElem?_eq_none (by omega)] at h
    exact Option.noConfusion h
  have hset1 : (σ.pairs.set a (v, cdr))[a]? = some (v, cdr) :=
    List.getElem?_set_self (by simpa using hlt)
  have hset2 : (σ.pairs.set a (car, v))[a]? = some (car, v) :=
    List.getElem?_set_self (by simpa using hlt)
  refine ⟨⟨?_, ?_, rfl, ?_⟩, ⟨?_, ?_, rfl, ?_⟩⟩
  · simp [setCarRator, h]
  · simp only [carRator]
    rw [hset1]
  · intro b hb
    exact List.getElem?_set_ne (Ne.symm hb)
  · simp [setCdrRator, h]
  · simp only [cdrRator]
    rw [hset2]
  · intro b hb
    exact List.getElem?_set_ne (Ne.symm hb)

/-- Witness for C9: mutating the single pair (1 . 2) of a one-cell heap. -/
theorem C9_set_car_cdr_witness :
    setCarRator (PairV 0) (IntV 9) ⟨[], [(IntV 1, IntV 2)], 0⟩ =
      .ok (VoidV, ⟨[], [(IntV 9, IntV 2)], 0⟩) :=
  (C9_set_car_cdr ⟨[], [(IntV 1, IntV 2)], 0⟩ 0 (IntV 1) (IntV 2) (IntV 9) rfl).1.1

/-- Claim C10: the surface primitive number? is implemented by IsFixnum,
which returns #t exactly on Int values; in particular every Rational —
including the value of the literal 1/2 — is reported #f. -/
theorem C10_number_pred :
    (∀ v, isFixnumRator v = BoolV true ↔ ∃ n, v = IntV n) ∧
    (∀ n d i, isFixnumRator (RatV n d i) = BoolV false) ∧
    eval 5 (.IsFixnum (.RationalNum 1 2)) [] State.init =
      .ok (BoolV false, [], ⟨[], [], 1⟩) := by
  refine ⟨?_, fun n d i => rfl, rfl⟩
  intro v
  constructor
  · intro h
    cases v <;> simp [isFixnumRator] at h ⊢
  · rintro ⟨n, rfl⟩
    rfl

/-- Witness for C10 applied at the concrete value 3. -/
theorem C10_number_pred_witness : isFixnumRator (IntV 3) = BoolV true :=
  (C10_number_pred.1 (IntV 3)).mpr ⟨3, rfl⟩

theorem varEval_checks_numeric (x : String) (c0 : Char) (cs : List Char)
    (env : Assoc) (σ : State) (n d : Int)
    (hx : x.data = c0 :: cs)
    (h1 : (c0.isDigit || c0 = '.' || c0 = '@') = false)
    (h2 : (x.data.any (fun c =>
      c = '#' || c = Char.ofNat 39 || c = Char.ofNat 34 || c = Char.ofNat 96)) = false)
    (hp : parse_rational x = some (n, d)) :
    varEval x env σ =
      if d = 1 then .ok (IntV n, env, σ)
      else .ok ((mkRat n d σ).1, env, (mkRat n d σ).2) := by
  unfold varEval
  rw [hx] at h2 ⊢
  simp only [h1, Bool.false_eq_true, if_false, h2, hp]

theorem varEval_checks_fallback (x : String) (c0 : Char) (cs : List Char)
    (env : Assoc) (σ : State)
    (hx : x.data = c0 :: cs)
    (h1 : (c0.isDigit || c0 = '.' || c0 = '@') = false)
    (h2 : (x.data.any (fun c =>
      c = '#' || c = Char.ofNat 39 || c = Char.ofNat 34 || c = Char.ofNat 96)) = false)
    (hp : parse_rational x = none) :
    varEval x env σ = varFallback x env σ := by
  rw [Bool.or_eq_false_iff, Bool.or_eq_false_iff] at h1
  obtain ⟨⟨hd, hdot⟩, hat⟩ := h1
  unfold varEval varFallback
  rw [hx] at h2 ⊢
  simp only [hd, hdot, hat, Bool.or_false, Bool.false_or,
    Bool.false_eq_true, if_false, h2, hp]
  rfl

/-- Claim C3: Letrec extends the environment with one Void placeholder
cell per name, evaluates each right-hand side in that extended
environment storing the result into the corresponding cell, then
evaluates the body; consequently a binding's right-hand side may
reference any sibling and observes its final value, not Void, at call
time: the mutually recursive even?/odd? pair answers #t on 10, and a
closure whose body reads a later sibling observes that sibling's final
value 7.  (Letrec::eval is a TODO stub in evaluation.cpp; the evaluator
case is modelled from the spec.) -/
theorem C3_letrec_knot :
    (∃ env' σ', eval 60 evenOddProg [] State.init = .ok (BoolV true, env', σ')) ∧
    (∃ env' σ', eval 10 letrecPeekProg [] State.init = .ok (IntV 7, env', σ')) :=
  ⟨⟨_, _, rfl⟩, ⟨_, _, rfl⟩⟩

/-- Claim C4 counterexample: the spec's own example
(define + (lambda (a b) (list a b))) never reaches evaluation — the
parser rejects defining a primitive name (parser.cpp line 311), so the
scenario "(+ 1 2) evaluates to (1 2) after the define" is impossible. -/
theorem C4_counterexample :
    parse 10 definePlusStx [] =
      .error (.rt "the var's name shouldn't be a reserved name") := rfl

/-- Claim C4 (amended): a list form whose head symbol is bound in the
static environment at parse time parses as an application, even when the
symbol names a primitive or reserved word; however `define` cannot be
used to bind a primitive name (the parser rejects it), so the shadowing
example must use a binding form: (let ((+ (lambda (a b) (list a b))))
(+ 1 2)) parses with + as an Apply head and evaluates to the list (1 2). -/
theorem C4_shadowing_amended :
    (∀ (f : Nat) (op : String) (tl : List Stx) (env : List String) (ps : List Expr),
      env.contains op = true →
      parseList (fun s e => parse f s e) tl env = .ok ps →
      parse (f + 1) (.ListStx (.SymbolStx op :: tl)) env =
        .ok (.Apply (.Var op) ps)) ∧
    (∃ e v env' σ',
      parse 10 letShadowStx [] = .ok e ∧
      eval 20 e [] State.init = .ok (v, env', σ') ∧
      readListVal 10 σ' v = some [IntV 1, IntV 2]) := by
  constructor
  · intro f op tl env ps hc hps
    show (if env.contains op then _ else _) = _
    rw [hc]
    simp only [if_true]
    rw [hps]
    rfl
  · exact ⟨_, _, _, _, rfl, rfl, rfl⟩

/-- Witness for C4: with car bound in the static environment, (car 5)
parses as an application of the variable car. -/
theorem C4_shadowing_amended_witness :
    parse 2 (.ListStx [.SymbolStx "car", .Number 5]) ["car"] =
      .ok (.Apply (.Var "car") [.Fixnum 5]) :=
  C4_shadowing_amended.1 1 "car" [.Number 5] ["car"] [.Fixnum 5] rfl rfl

/-- Claim C5 counterexample: car is a primitive name (so are cons, <,
list?, ...), it is unbound, yet Var("car") evaluation raises
RuntimeError instead of synthesizing a procedure: primitive_map has no
entry for E_CAR. -/
theorem C5_counterexample :
    eval 1 (.Var "car") [] State.init =
      .error (.rt "The variable is not define in the scope") := rfl

/-- Claim C5 (amended): only the primitive names with a primitive_map
prototype (void, exit, the type predicates, display, the four arithmetic
operators, modulo, expt, and eq?) synthesize a first-class Procedure when
unbound; all other primitive names (car, cdr, cons, list, list?,
set-car!, set-cdr!, the comparison operators, not) raise RuntimeError.
An applied synthesized arithmetic or predicate procedure behaves as the
primitive ((+ 1 2) gives 3 through the procedure; number? on 1/2 gives
 #f), but eq?'s prototype pairs the numeric-equality body with an empty
formal list, so applying the synthesized eq? always fails the arity
check. -/
theorem C5_first_class_amended :
    (∀ f (x : String) env σ, eval (f + 1) (.Var x) env σ = varEval x env σ) ∧
    (∀ nm ∈ workingPrimNames, ∀ (env : Assoc) (σ : State),
      find nm env σ = none →
      varEval nm env σ =
        .ok (ProcV (primProto nm).2 (primProto nm).1 [] σ.nextId, env,
          { σ with nextId := σ.nextId + 1 })) ∧
    (∀ nm ∈ missingPrimNames, ∀ (env : Assoc) (σ : State),
      find nm env σ = none →
      varEval nm env σ = .error (.rt "The variable is not define in the scope")) ∧
    (∃ env' σ', eval 10 (.Apply (.Var "+") [.Fixnum 1, .Fixnum 2]) [] State.init =
      .ok (IntV 3, env', σ')) ∧
    (∃ env' σ', eval 10 (.Apply (.Var "number?") [.RationalNum 1 2]) [] State.init =
      .ok (BoolV false, env', σ')) ∧
    eval 10 (.Apply (.Var "eq?") [.Fixnum 1, .Fixnum 1]) [] State.init =
      .error (.rt "Wrong number of arguments") := by
  refine ⟨fun _ _ _ _ => rfl, ?_, ?_, ⟨_, _, rfl⟩, ⟨_, _, rfl⟩, rfl⟩
  · intro nm hnm env σ hfind
    fin_cases hnm <;>
      · rw [varEval_checks_fallback _ _ _ env σ rfl (by decide) (by decide) (by decide)]
        unfold varFallback
        rw [hfind]
        rfl
  · intro nm hnm env σ hfind
    fin_cases hnm <;>
      · rw [varEval_checks_fallback _ _ _ env σ rfl (by decide) (by decide) (by decide)]
        unfold varFallback
        rw [hfind]
        rfl

/-- Witness for C5: the unbound name + synthesizes the variadic addition
procedure in the empty environment. -/
theorem C5_first_class_amended_witness :
    varEval "+" [] State.init =
      .ok (ProcV ["@args"] (.PlusVar []) [] 0, [], ⟨[], [], 1⟩) :=
  C5_first_class_amended.2.1 "+" (by decide) [] State.init rfl

theorem scanGo_nodots :
    ∀ (vs : List Value) (j total : Nat) (isp : Bool) (mid : List Value),
      (∀ x ∈ vs, isDotV x = false) →
      scanGo vs j total isp mid = .ok (mid ++ vs, isp) := by
  intro vs
  induction vs with
  | nil =>
    intro j total isp mid _
    simp [scanGo]
  | cons v rest ih =>
    intro j total isp mid hall
    have hv : isDotV v = false := hall v (by simp)
    simp only [scanGo, hv, Bool.false_eq_true, if_false]
    rw [ih (j + 1) total isp (mid ++ [v]) (fun x hx => hall x (by simp [hx]))]
    simp

theorem scanGo_skip :
    ∀ (l1 rest : List Value) (j total : Nat) (isp : Bool) (mid : List Value),
      (∀ x ∈ l1, isDotV x = false) →
      scanGo (l1 ++ rest) j total isp mid =
        scanGo rest (j + l1.length) total isp (mid ++ l1) := by
  intro l1
  induction l1 with
  | nil =>
    intro rest j total isp mid _
    simp
  | cons v r ih =>
    intro rest j total isp mid hall
    have hv : isDotV v = false := hall v (by simp)
    show scanGo (v :: (r ++ rest)) j total isp mid = _
    simp only [scanGo, hv, Bool.false_eq_true, if_false]
    rw [ih rest (j + 1) total isp (mid ++ [v]) (fun x hx => hall x (by simp [hx]))]
    have hj : j + 1 + r.length = j + (v :: r).length := by
      simp only [List.length_cons]
      omega
    have hm : (mid ++ [v]) ++ r = mid ++ v :: r := by simp
    rw [hj, hm]

theorem scanDot_no_dot (vs : List Value)
    (h : ∀ x ∈ vs, isDotV x = false) : scanDot vs = .ok (vs, false) := by
  unfold scanDot
  rw [scanGo_nodots vs 0 vs.length false [] h]
  simp

theorem scanDot_mid_dot (l1 l2 : List Value) (d : Value)
    (hd : isDotV d = true) (h1 : l1 ≠ []) (h2 : l2 ≠ [])
    (hn1 : ∀ x ∈ l1, isDotV x = false) (hn2 : ∀ x ∈ l2, isDotV x = false) :
    scanDot (l1 ++ d :: l2) = .ok (l1 ++ l2, true) := by
  have h1p : 0 < l1.length := List.length_pos.mpr h1
  have h2p : 0 < l2.length := List.length_pos.mpr h2
  have hc1 : (l1.length == (l1 ++ d :: l2).length - 1) = false := by
    rw [beq_eq_false_iff_ne]
    simp only [List.length_append, List.length_cons]
    omega
  have hc2 : (l1.length == 0) = false := by
    rw [beq_eq_false_iff_ne]
    omega
  unfold scanDot
  rw [scanGo_skip l1 (d :: l2) 0 (l1 ++ d :: l2).length false [] hn1]
  simp only [Nat.zero_add, List.nil_append, scanGo, hd, if_true, hc1, hc2,
    Bool.or_false, Bool.false_or, Bool.false_eq_true, if_false]
  rw [scanGo_nodots l2 (l1.length + 1) (l1 ++ d :: l2).length true l1 hn2]

theorem scanDot_dot_first (d : Value) (l : List Value) (hd : isDotV d = true) :
    scanDot (d :: l) = .error (.rt "Invalid dot expression") := by
  unfold scanDot
  simp [scanGo, hd]

theorem scanDot_dot_last (l1 : List Value) (d : Value)
    (hn1 : ∀ x ∈ l1, isDotV x = false) (hd : isDotV d = true) :
    scanDot (l1 ++ [d]) = .error (.rt "Invalid dot expression") := by
  have hc : (0 + l1.length == (l1 ++ [d]).length - 1) = true := by
    rw [beq_iff_eq]
    simp
  unfold scanDot
  rw [scanGo_skip l1 [d] 0 (l1 ++ [d]).length false [] hn1]
  simp [scanGo, hd, hc]

theorem scanDot_two_dots (l1 l2 l3 : List Value) (d1 d2 : Value)
    (h1 : l1 ≠ [])
    (hn1 : ∀ x ∈ l1, isDotV x = false) (hn2 : ∀ x ∈ l2, isDotV x = false)
    (hd1 : isDotV d1 = true) (hd2 : isDotV d2 = true) :
    scanDot (l1 ++ d1 :: l2 ++ d2 :: l3) = .error (.rt "Invalid dot expression") := by
  have h1p : 0 < l1.length := List.length_pos.mpr h1
  have hc1 : (l1.length == (l1 ++ d1 :: l2 ++ d2 :: l3).length - 1) = false := by
    rw [beq_eq_false_iff_ne]
    simp only [List.length_append, List.length_cons]
    omega
  have hc2 : (l1.length == 0) = false := by
    rw [beq_eq_false_iff_ne]
    omega
  unfold scanDot
  rw [show l1 ++ d1 :: l2 ++ d2 :: l3 = l1 ++ (d1 :: (l2 ++ d2 :: l3)) from by simp]
  rw [scanGo_skip l1 (d1 :: (l2 ++ d2 :: l3)) 0 _ false [] hn1]
  simp only [Nat.zero_add, List.nil_append, scanGo, hd1, if_true, hc1, hc2,
    Bool.or_false, Bool.false_or, Bool.false_eq_true, if_false]
  rw [scanGo_skip l2 (d2 :: l3) _ _ true _ hn2]
  simp [scanGo, hd2]

theorem helper_list_via_scan (f : Nat) (stxs : List Stx) (σ : State)
    (first_list : List Value) (σ1 : State)
    (hne : stxs.isEmpty = false)
    (hl : helperList f stxs σ = .ok (first_list, σ1)) :
    helper (f + 1) (.ListStx stxs) σ =
      (match scanDot first_list with
       | .error e => .error e
       | .ok (mid, true) =>
         match mid.reverse with
         | [] => .error (.rt "empty element list (out-of-bounds access in source)")
         | last :: revRest => .ok (buildListVal revRest last σ1)
       | .ok (mid, false) => .ok (buildListVal mid.reverse NullV σ1)) := by
  show (if stxs.isEmpty then _ else _) = _
  rw [hne]
  simp only [Bool.false_eq_true, if_false]
  rw [hl]
  simp only [ebind_ok]
  cases hscan : scanDot first_list with
  | error e => rfl
  | ok p =>
    obtain ⟨mid, ispair⟩ := p
    cases ispair
    · rfl
    · rfl

/-- Claim C6 counterexample: quote conversion of (a . b c) — a dot in a
position that is not second-from-last — succeeds, producing
Pair(a, Pair(b, c)), where the claim demands a ParseError. -/
theorem C6_counterexample :
    helper 10 (.ListStx [.SymbolStx "a", .SymbolStx ".",
        .SymbolStx "b", .SymbolStx "c"]) State.init =
      .ok (PairV 1, ⟨[], [(SymV "b", SymV "c"), (SymV "a", PairV 0)], 0⟩) := rfl

/-- Claim C6 (amended): quote conversion of a list permits exactly one
dot element at any position other than the first and the last (not only
second-from-last); the non-dot elements are right-folded with the last
one as the tail, so (a . b) gives Pair(a,b), (a b . c) gives
Pair(a, Pair(b,c)), and also (a . b c) gives Pair(a, Pair(b,c)); a dot
that is first or last, or a second dot, raises the RuntimeError
"Invalid dot expression" (the only error kind this interpreter has). -/
theorem C6_quote_dot_amended :
    (∀ vs : List Value, (∀ x ∈ vs, isDotV x = false) →
      scanDot vs = .ok (vs, false)) ∧
    (∀ (l1 l2 : List Value) (d : Value), isDotV d = true → l1 ≠ [] → l2 ≠ [] →
      (∀ x ∈ l1, isDotV x = false) → (∀ x ∈ l2, isDotV x = false) →
      scanDot (l1 ++ d :: l2) = .ok (l1 ++ l2, true)) ∧
    (∀ (d : Value) (l : List Value), isDotV d = true →
      scanDot (d :: l) = .error (.rt "Invalid dot expression")) ∧
    (∀ (l1 : List Value) (d : Value), (∀ x ∈ l1, isDotV x = false) →
      isDotV d = true →
      scanDot (l1 ++ [d]) = .error (.rt "Invalid dot expression")) ∧
    (∀ (l1 l2 l3 : List Value) (d1 d2 : Value), l1 ≠ [] →
      (∀ x ∈ l1, isDotV x = false) → (∀ x ∈ l2, isDotV x = false) →
      isDotV d1 = true → isDotV d2 = true →
      scanDot (l1 ++ d1 :: l2 ++ d2 :: l3) = .error (.rt "Invalid dot expression")) ∧
    (∀ (f : Nat) (stxs : List Stx) (σ : State) (first_list : List Value)
        (σ1 : State) (e : Err),
      stxs.isEmpty = false → helperList f stxs σ = .ok (first_list, σ1) →
      scanDot first_list = .error e →
      helper (f + 1) (.ListStx stxs) σ = .error e) ∧
    helper 10 (.ListStx [.SymbolStx "a", .SymbolStx ".", .SymbolStx "b"])
        State.init =
      .ok (PairV 0, ⟨[], [(SymV "a", SymV "b")], 0⟩) ∧
    helper 10 (.ListStx [.SymbolStx "a", .SymbolStx "b", .SymbolStx ".",
        .SymbolStx "c"]) State.init =
      .ok (PairV 1, ⟨[], [(SymV "b", SymV "c"), (SymV "a", PairV 0)], 0⟩) ∧
    helper 10 (.ListStx [.SymbolStx ".", .SymbolStx "a"]) State.init =
      .error (.rt "Invalid dot expression") ∧
    helper 10 (.ListStx [.SymbolStx "a", .SymbolStx "."]) State.init =
      .error (.rt "Invalid dot expression") ∧
    helper 10 (.ListStx [.SymbolStx "a", .SymbolStx ".", .SymbolStx ".",
        .SymbolStx "b"]) State.init =
      .error (.rt "Invalid dot expression") := by
  refine ⟨scanDot_no_dot, scanDot_mid_dot, scanDot_dot_first, ?_,
    ?_, ?_, rfl, rfl, rfl, rfl, rfl⟩
  · intro l1 d hn1 hd
    exact scanDot_dot_last l1 d hn1 hd
  · intro l1 l2 l3 d1 d2 h1 hn1 hn2 hd1 hd2
    exact scanDot_two_dots l1 l2 l3 d1 d2 h1 hn1 hn2 hd1 hd2
  · intro f stxs σ first_list σ1 e hne hl hscan
    rw [helper_list_via_scan f stxs σ first_list σ1 hne hl, hscan]

/-- Witness for C6: the dot placement logic applied to the concrete
element list of (a . b c). -/
theorem C6_quote_dot_amended_witness :
    scanDot [SymV "a", SymV ".", SymV "b", SymV "c"] =
      .ok ([SymV "a", SymV "b", SymV "c"], true) :=
  C6_quote_dot_amended.2.1 [SymV "a"] [SymV "b", SymV "c"] (SymV ".")
    rfl (by simp) (by simp) (by simp [isDotV]) (by simp [isDotV])

/-- Claim C7: in a cond form, a clause head that is the literal symbol
else is recognized exactly when the name else is unbound in the static
environment and the clause is last; a recognized else clause must have a
non-empty body (else parsing fails), and its head is lowered to the
literal #t; a bound else is parsed as the ordinary variable else; an
else head in a non-final clause fails. -/
theorem C7_cond_else :
    (∀ (f : Nat) (env : List String) (body : List Stx) (bodyE : List Expr),
      env.contains "else" = false → body ≠ [] →
      parseList (fun s e => parse (f + 1) s e) body env = .ok bodyE →
      parseCondClauses (fun s e => parse (f + 1) s e)
          [.ListStx (.SymbolStx "else" :: body)] env =
        .ok [Expr.ETrue :: bodyE]) ∧
    (∀ (f : Nat) (env : List String) (body : List Stx) (bodyE : List Expr),
      env.contains "else" = true →
      parseList (fun s e => parse (f + 1) s e) body env = .ok bodyE →
      parseCondClauses (fun s e => parse (f + 1) s e)
          [.ListStx (.SymbolStx "else" :: body)] env =
        .ok [Expr.Var "else" :: bodyE]) ∧
    (∀ (f : Nat) (env : List String) (body : List Stx) (c2 : Stx) (rest : List Stx),
      env.contains "else" = false →
      parseCondClauses (fun s e => parse f s e)
          (.ListStx (.SymbolStx "else" :: body) :: c2 :: rest) env =
        .error (.rt "else must be last clause")) ∧
    (∀ (f : Nat) (env : List String),
      env.contains "else" = false →
      parseCondClauses (fun s e => parse f s e) [.ListStx [.SymbolStx "else"]] env =
        .error (.rt "else must has a else clause")) ∧
    (∀ (f : Nat) (env : List String) (tl : List Stx) (cls : List (List Expr)),
      env.contains "cond" = false → tl ≠ [] →
      parseCondClauses (fun s e => parse f s e) tl env = .ok cls →
      parse (f + 1) (.ListStx (.SymbolStx "cond" :: tl)) env = .ok (.Cond cls)) := by
  refine ⟨?_, ?_, ?_, ?_, ?_⟩
  · intro f env body bodyE hc hne hps
    have hmem : "else" ∉ env := by simpa using hc
    have hbe : body.isEmpty = false := by
      cases body
      · exact absurd rfl hne
      · rfl
    simp [parseCondClauses, hmem, hbe, hps, ebind_ok, ebind_error]
  · intro f env body bodyE hc hps
    have hmem : "else" ∈ env := by simpa using hc
    simp only [parseCondClauses, hps, ebind_ok, ebind_error]
    rw [if_neg (by simp [hmem])]
    rw [show parse (f + 1) (.SymbolStx "else") env = .ok (.Var "else") from rfl]
    rfl
  · intro f env body c2 rest hc
    have hmem : "else" ∉ env := by simpa using hc
    simp [parseCondClauses, hmem, ebind_ok, ebind_error]
  · intro f env hc
    have hmem : "else" ∉ env := by simpa using hc
    simp [parseCondClauses, hmem, ebind_ok, ebind_error]
  · intro f env tl cls hc hne hcls
    show (if env.contains "cond" then _ else _) = _
    rw [hc]
    simp only [Bool.false_eq_true, if_false]
    cases tl
    · exact absurd rfl hne
    · show (parseCondClauses (fun s e => parse f s e) _ env) >>= _ = _
      rw [hcls]
      rfl

/-- Witness for C7: a lone (else 1) clause with else unbound lowers to
the literal #t head. -/
theorem C7_cond_else_witness :
    parseCondClauses (fun s e => parse 1 s e)
        [.ListStx [.SymbolStx "else", .Number 1]] [] =
      .ok [[Expr.ETrue, Expr.Fixnum 1]] :=
  C7_cond_else.1 0 [] [.Number 1] [.Fixnum 1] rfl (by simp) rfl

theorem digitsAcc_decomp :
    ∀ (l : List Char) (acc : Int),
      ∃ pre, l = pre ++ (digitsAcc l acc).2.2 ∧ ∀ c ∈ pre, c.isDigit = true := by
  intro l
  induction l with
  | nil =>
    intro acc
    exact ⟨[], rfl, by simp⟩
  | cons a r ih =>
    intro acc
    cases ha : a.isDigit
    · refine ⟨[], ?_, by simp⟩
      simp [digitsAcc, ha]
    · obtain ⟨pre, hpre, hall⟩ := ih (acc * 10 + ((a.toNat : Int) - 48))
      refine ⟨a :: pre, ?_, ?_⟩
      · have hred : (digitsAcc (a :: r) acc).2.2 =
            (digitsAcc r (acc * 10 + ((a.toNat : Int) - 48))).2.2 := by
          simp [digitsAcc, ha]
        rw [hred, List.cons_append, ← hpre]
      · intro c hc
        rcases List.mem_cons.mp hc with rfl | hcr
        · exact ha
        · exact hall c hcr

theorem stripSign_decomp (l : List Char) :
    ∃ pre, l = pre ++ stripSign l ∧ ∀ c ∈ pre, okChar c = true := by
  match l with
  | [] => exact ⟨[], rfl, by simp⟩
  | a :: r =>
    by_cases h1 : a = '+'
    · subst h1
      exact ⟨['+'], by simp [stripSign], by decide⟩
    · by_cases h2 : a = '-'
      · subst h2
        exact ⟨['-'], by simp [stripSign], by decide⟩
      · refine ⟨[], ?_, by simp⟩
        simp [stripSign, h1, h2]

theorem fracStep_decomp (l2 : List Char) :
    ∃ pre, l2 = pre ++ (fracStep l2).2.2.2 ∧ ∀ c ∈ pre, okChar c = true := by
  match l2 with
  | [] => exact ⟨[], rfl, by simp⟩
  | a :: r =>
    by_cases h1 : a = '.'
    · subst h1
      obtain ⟨pre, hpre, hall⟩ := digitsAcc_decomp r 0
      refine ⟨'.' :: pre, ?_, ?_⟩
      · have hred : (fracStep ('.' :: r)).2.2.2 = (digitsAcc r 0).2.2 := by
          simp [fracStep]
        rw [hred, List.cons_append, ← hpre]
      · intro c hc
        rcases List.mem_cons.mp hc with rfl | hcr
        · decide
        · have := hall c hcr
          simp [okChar, this]
    · refine ⟨[], ?_, by simp⟩
      simp [fracStep, h1]

theorem expStep_decomp (l3 : List Char) (es ev : Int) (l4 : List Char)
    (h : expStep l3 = some (es, ev, l4)) :
    ∃ pre, l3 = pre ++ l4 ∧ ∀ c ∈ pre, okChar c = true := by
  match l3 with
  | [] =>
    simp [expStep] at h
    exact ⟨[], by rw [h.2.2]; rfl, by simp⟩
  | c :: r =>
    by_cases hce : c = 'e' ∨ c = 'E'
    · rw [show expStep (c :: r) = (match stripSign r with
          | [] => none
          | c2 :: _ =>
            if c2.isDigit then
              some (sgnOf r, (digitsAcc (stripSign r) 0).1,
                (digitsAcc (stripSign r) 0).2.2)
            else none) from by simp [expStep, hce]] at h
      cases hsr : stripSign r with
      | nil =>
        rw [hsr] at h
        exact Option.noConfusion h
      | cons c2 r2 =>
        rw [hsr] at h
        have h' : (if c2.isDigit then
            some (sgnOf r, (digitsAcc (c2 :: r2) 0).1,
              (digitsAcc (c2 :: r2) 0).2.2)
          else none) = some (es, ev, l4) := h
        cases hd2 : c2.isDigit
        · rw [if_neg (by rw [hd2]; exact Bool.false_ne_true)] at h'
          exact Option.noConfusion h'
        · rw [if_pos hd2] at h'
          injection h' with h2
          obtain ⟨spre, hspre, hsok⟩ := stripSign_decomp r
          obtain ⟨dpre, hdpre, hdok⟩ := digitsAcc_decomp (stripSign r) 0
          have hl4 : l4 = (digitsAcc (stripSign r) 0).2.2 := by
            rw [hsr]
            have := congrArg (fun t : Int × Int × List Char => t.2.2) h2
            exact this.symm
          refine ⟨c :: (spre ++ dpre), ?_, ?_⟩
          · rw [List.cons_append, List.append_assoc, hl4, ← hdpre, ← hspre]
          · intro x hx
            rcases List.mem_cons.mp hx with rfl | hx2
            · rcases hce with rfl | rfl <;> decide
            · rcases List.mem_append.mp hx2 with hx3 | hx3
              · exact hsok x hx3
              · have := hdok x hx3
                simp [okChar, this]
    · rw [show expStep (c :: r) = some (1, 0, c :: r) from by
        simp [expStep, hce]] at h
      injection h with h2
      have hl4 : l4 = c :: r := by
        have := congrArg (fun t : Int × Int × List Char => t.2.2) h2
        exact this.symm
      exact ⟨[], by rw [hl4]; rfl, by simp⟩

theorem parse_rational_chars (s : String) (p : Int × Int)
    (h : parse_rational s = some p) : ∀ c ∈ s.data, okChar c = true := by
  unfold parse_rational at h
  split at h
  · exact absurd h (by simp)
  · split at h
    · exact absurd h (by simp)
    · rename_i es ev l4 heq
      split at h
      · exact absurd h (by simp)
      · rename_i hl4ne
        have hl4 : l4 = [] := by
          by_contra hcon
          exact hl4ne hcon
        obtain ⟨pre0, he0, hok0⟩ := stripSign_decomp s.data
        obtain ⟨pre1, he1, hd1⟩ := digitsAcc_decomp (stripSign s.data) 0
        obtain ⟨pre2, he2, hok2⟩ := fracStep_decomp (digitsAcc (stripSign s.data) 0).2.2
        obtain ⟨pre3, he3, hok3⟩ :=
          expStep_decomp (fracStep (digitsAcc (stripSign s.data) 0).2.2).2.2.2
            es ev l4 heq
        intro c hc
        rw [he0] at hc
        rcases List.mem_append.mp hc with hm | hm
        · exact hok0 c hm
        · rw [he1] at hm
          rcases List.mem_append.mp hm with hm2 | hm2
          · have := hd1 c hm2
            simp [okChar, this]
          · rw [he2] at hm2
            rcases List.mem_append.mp hm2 with hm3 | hm3
            · exact hok2 c hm3
            · rw [he3] at hm3
              rcases List.mem_append.mp hm3 with hm4 | hm4
              · exact hok3 c hm4
              · rw [hl4] at hm4
                cases hm4

theorem okChar_not_invalid (c : Char) (h : okChar c = true) :
    (c = '#' || c = Char.ofNat 39 || c = Char.ofNat 34 || c = Char.ofNat 96) = false := by
  by_cases e1 : c = '#'
  · exact absurd (e1 ▸ h) (by decide)
  · by_cases e2 : c = Char.ofNat 39
    · exact absurd (e2 ▸ h) (by decide)
    · by_cases e3 : c = Char.ofNat 34
      · exact absurd (e3 ▸ h) (by decide)
      · by_cases e4 : c = Char.ofNat 96
        · exact absurd (e4 ▸ h) (by decide)
        · simp [e1, e2, e3, e4]

theorem parse_rational_no_invalid (s : String) (p : Int × Int)
    (h : parse_rational s = some p) :
    (s.data.any (fun c =>
      c = '#' || c = Char.ofNat 39 || c = Char.ofNat 34 || c = Char.ofNat 96)) = false := by
  rw [List.any_eq_false]
  intro c hc
  have hok := parse_rational_chars s p h c hc
  simpa using okChar_not_invalid c hok

/-- Claim C2 counterexample: ".5" and "1e-3" both match the numeric
identifier grammar (parse_rational accepts them, normalized to 1/2 and
1/1000), yet Var(".5") and Var("1e-3") raise RuntimeError: Var::eval
rejects any identifier starting with a digit, a dot or an at sign before
trying the numeric reinterpretation. -/
theorem C2_counterexample :
    parse_rational ".5" = some (1, 2) ∧
    eval 1 (.Var ".5") [] State.init =
      .error (.rt "the first character of var is invalid") ∧
    parse_rational "1e-3" = some (1, 1000) ∧
    eval 1 (.Var "1e-3") [] State.init =
      .error (.rt "the first character of var is invalid") :=
  ⟨by decide, rfl, by decide, rfl⟩

/-- Claim C2 (amended): only identifiers matching the numeric grammar
that begin with an explicit sign character reach the numeric
reinterpretation: for every string s with s.data = c0 :: cs, c0 ∈ {+,-},
and parse_rational s = some (n, d), evaluating Var(s) in any environment
returns the numeric value determined by the reinterpretation — Int when
d = 1, else the (normalized) rational — performing no environment lookup
and raising no error; the result satisfies the numeric invariant
whenever d is nonzero.  Identifiers matching the grammar that begin with
a digit or a dot instead raise RuntimeError (see the counterexample). -/
theorem C2_numeric_identifier_amended :
    ∀ (s : String) (c0 : Char) (cs : List Char) (n d : Int) (env : Assoc)
      (σ : State) (f : Nat),
      s.data = c0 :: cs → (c0 = '+' ∨ c0 = '-') →
      parse_rational s = some (n, d) →
      eval (f + 1) (.Var s) env σ =
        (if d = 1 then .ok (IntV n, env, σ)
         else .ok ((mkRat n d σ).1, env, (mkRat n d σ).2)) ∧
      (d ≠ 0 → ratOK (if d = 1 then IntV n else (mkRat n d σ).1)) := by
  intro s c0 cs n d env σ f hx hsign hp
  constructor
  · have h1 : (c0.isDigit || c0 = '.' || c0 = '@') = false := by
      rcases hsign with rfl | rfl <;> decide
    have h2 := parse_rational_no_invalid s (n, d) hp
    rw [show eval (f + 1) (.Var s) env σ = varEval s env σ from rfl,
      varEval_checks_numeric s c0 cs env σ n d hx h1 h2 hp]
  · intro hd
    split
    · exact ratOK_int n
    · exact mkRat_ratOK n d σ hd

/-- Witness for C2: the signed numeric identifier +3 evaluates to the
integer 3 in the empty environment. -/
theorem C2_numeric_identifier_amended_witness :
    eval 1 (.Var "+3") [] State.init = .ok (IntV 3, [], State.init) := by
  have h := (C2_numeric_identifier_amended "+3" '+' ['3'] 3 1 [] State.init 0
    rfl (Or.inl rfl) (by decide)).1
  rw [if_pos rfl] at h
  exact h

end Scheme

